import Mathlib

/-!
Verification development for the Bus_History arrival-detection engine.

The definitions below are a shallow embedding of the Go collector
(`internal/collector`): the per-station bus-state tracker (`collectData`),
the confirmation policy (`getSeatsAfterFromBusLocation`), the time-window
gate (`isWithinTimeWindow`), the configuration supervisor reconciliation
(`syncConfigs`) and the collector lifecycle (`Stop` / `IsRunning`).

Modelling conventions:
- `time.Time` values become `Nat` timestamps (seconds); Go duration
  constants `2*time.Minute`, `10*time.Minute`, `1*time.Hour` become the
  second counts 120, 600, 3600.  The zero `time.Time` used as the
  "unset" marker for `PassedAt` becomes `Option Nat` with `none` for the
  zero value.
- Go `int` fields become `Int`.
- The Go maps `map[string]*BusState` and `map[int64]*configCollector`
  become association lists with unique keys (`alookup` is Go map lookup;
  iteration order is fixed to list order, which is sound because each
  loop body touches only the entry at hand).
- Fallible upstream calls (`GetRouteArrivalList`, `GetBusLocations`)
  become `Except Unit` values supplied as tick inputs; the outcome of
  each `busRepo.Create` call is supplied as a `persistOk` oracle, and
  every attempted `Create` call is reported in the tick output as a
  `PersistCall` (the record together with whether the write succeeded).
-/

namespace BusHistory

/-- Snapshot-source item (Go `model.BusArrivalInfo`): the fields the
collector reads. -/
structure BusArrivalInfo where
  PlateNo : String
  RemainSeatCnt : Int
  LocationNo1 : Int
deriving DecidableEq

/-- Confirmation-source item (Go `model.BusLocation`): the fields the
collector reads. -/
structure BusLocation where
  PlateNo : String
  StationSeq : Int
  RemainSeatCnt : Int
deriving DecidableEq

/-- Go `collector.BusState`: per-plate tracking entry.  `PassedAt` is
`none` for the Go zero time (`state.PassedAt.IsZero()`). -/
structure BusState where
  PlateNo : String
  FirstSeenAt : Nat
  LastSeenAt : Nat
  SeatsBefore : Int
  LocationNo : Int
  Recorded : Bool
  PassedAt : Option Nat
  RetryCount : Nat
deriving DecidableEq

/-- Go `model.BusArrival` as built by `collectData` (the fields that are
set there; `SeatsBefore` is always set, `SeatsAfter` may be nil). -/
structure BusArrival where
  RouteConfigID : Int
  BusNumber : String
  ArrivalTime : Nat
  SeatsBefore : Int
  SeatsAfter : Option Int
deriving DecidableEq

/-- One attempted `busRepo.Create` call: the record passed in and
whether the call succeeded. -/
abbrev PersistCall := BusArrival × Bool

/-- The tracker map `map[string]*BusState`, keyed by plate. -/
abbrev StateMap := List (String × BusState)

/-- Go map lookup on an association list. -/
def alookup {κ β : Type} [DecidableEq κ] : List (κ × β) → κ → Option β
  | [], _ => none
  | e :: rest, k => if e.1 = k then some e.2 else alookup rest k

/-- Confirmation timeout: `2 * time.Minute` in seconds. -/
def confirmTimeout : Nat := 120

/-- Post-passage tracking removal window: `10 * time.Minute` in seconds. -/
def retentionWindow : Nat := 600

/-- Absolute tracking age ceiling: `1 * time.Hour` in seconds. -/
def ageCeiling : Nat := 3600

/-- Scan of the location list inside `getSeatsAfterFromBusLocation`:
first location whose plate matches decides the result; a negative seat
count there is the "not yet available" sentinel and yields nil. -/
def findSeatsAfter (plateNo : String) : List BusLocation → Option Int
  | [] => none
  | loc :: rest =>
    if loc.PlateNo = plateNo then
      if loc.RemainSeatCnt < 0 then none else some loc.RemainSeatCnt
    else findSeatsAfter plateNo rest

/-- Go `Collector.getSeatsAfterFromBusLocation`: a transport error from
`GetBusLocations` yields nil, otherwise the list is scanned; the
function is total (never returns an error to the tick loop). -/
def getSeatsAfterFromBusLocation
    (locResult : Except Unit (List BusLocation)) (plateNo : String) : Option Int :=
  match locResult with
  | .error _ => none
  | .ok locations => findSeatsAfter plateNo locations

/-- Go `Collector.isWithinTimeWindow`, with the current wall-clock hour
passed explicitly. -/
def isWithinTimeWindow (startHour endHour hour : Nat) : Bool :=
  if startHour == 0 && endHour == 0 then
    true
  else if startHour < endHour then
    decide (startHour ≤ hour) && decide (hour < endHour)
  else if endHour < startHour then
    decide (startHour ≤ hour) || decide (hour < endHour)
  else
    hour == startHour

/-- Fresh tracking entry for a newly detected plate (Go `collectData`,
new-bus branch). -/
def newBusState (now : Nat) (a : BusArrivalInfo) : BusState :=
  { PlateNo := a.PlateNo, FirstSeenAt := now, LastSeenAt := now,
    SeatsBefore := a.RemainSeatCnt, LocationNo := a.LocationNo1,
    Recorded := false, PassedAt := none, RetryCount := 0 }

/-- Update of an already-tracked plate that appears in the snapshot (Go
`collectData`, existing-bus branch): `LastSeenAt` always becomes `now`;
`SeatsBefore` and `LocationNo` are overwritten only when the new
stops-away ordinal is strictly smaller. -/
def updateBusState (now : Nat) (a : BusArrivalInfo) (s : BusState) : BusState :=
  if a.LocationNo1 < s.LocationNo then
    { s with LastSeenAt := now, SeatsBefore := a.RemainSeatCnt, LocationNo := a.LocationNo1 }
  else
    { s with LastSeenAt := now }

/-- Processing of one snapshot item (the body of the first loop of
`collectData`): empty plates are skipped; known plates are updated in
place; unknown plates get a fresh entry. -/
def processArrival (now : Nat) (m : StateMap) (a : BusArrivalInfo) : StateMap :=
  if a.PlateNo = "" then m
  else if (alookup m a.PlateNo).isSome then
    m.map (fun e => if e.1 = a.PlateNo then (e.1, updateBusState now a e.2) else e)
  else
    m ++ [(a.PlateNo, newBusState now a)]

/-- The first loop of `collectData` over the whole snapshot. -/
def processArrivals (now : Nat) (arrivals : List BusArrivalInfo) (m : StateMap) : StateMap :=
  arrivals.foldl (processArrival now) m

/-- The `currentBuses` set of `collectData`: plates present in the
snapshot under a non-empty plate number. -/
def currentB (arrivals : List BusArrivalInfo) (p : String) : Bool :=
  arrivals.any (fun a => (a.PlateNo != "") && (a.PlateNo == p))

/-- Effect of one snapshot item on the entry of one fixed plate `p`
(the per-plate view of `processArrival`). -/
def step1Fn (now : Nat) (p : String) (acc : Option BusState) (a : BusArrivalInfo) :
    Option BusState :=
  if a.PlateNo = "" ∨ a.PlateNo ≠ p then acc
  else
    match acc with
    | some s => some (updateBusState now a s)
    | none => some (newBusState now a)

/-- Effect of the first loop of `collectData` on the entry of one fixed
plate `p`, expressed as a fold over the snapshot (used to reason about
`processArrivals` one plate at a time). -/
def step1Effect (now : Nat) (p : String) (arrivals : List BusArrivalInfo)
    (o : Option BusState) : Option BusState :=
  arrivals.foldl (step1Fn now p) o

/-- Passage/confirmation/timeout treatment of one absent tracked entry
(the body of the `!state.Recorded` branch of the second loop of
`collectData`): already-recorded entries are untouched; otherwise
`PassedAt` is set if unset, then the confirmation result decides
between immediate finalization, pending retry, and timeout
finalization.  `confirm` is the confirmation-lookup result for this
plate and `ok` the outcome of the `busRepo.Create` call, if one is
made. -/
def passCore (cfgID : Int) (now : Nat) (confirm : Option Int) (ok : Bool)
    (p : String) (s : BusState) : BusState × List PersistCall :=
  if s.Recorded then (s, [])
  else
    let s1 := if s.PassedAt = none then { s with PassedAt := some now } else s
    match confirm with
    | some v =>
      let rec0 : BusArrival := { RouteConfigID := cfgID, BusNumber := p,
                                 ArrivalTime := s1.LastSeenAt,
                                 SeatsBefore := s1.SeatsBefore, SeatsAfter := some v }
      if ok then ({ s1 with Recorded := true }, [(rec0, true)])
      else (s1, [(rec0, false)])
    | none =>
      let s2 := { s1 with RetryCount := s1.RetryCount + 1 }
      if now - s2.PassedAt.getD now < confirmTimeout then (s2, [])
      else
        let rec0 : BusArrival := { RouteConfigID := cfgID, BusNumber := p,
                                   ArrivalTime := s2.LastSeenAt,
                                   SeatsBefore := s2.SeatsBefore, SeatsAfter := none }
        if ok then ({ s2 with Recorded := true }, [(rec0, true)])
        else (s2, [(rec0, false)])

/-- Body of the second loop of `collectData` for one tracked entry:
plates still present are left alone; absent plates get the
passage/confirmation/timeout treatment of `passCore`; afterwards any
absent entry whose `LastSeenAt` is more than `retentionWindow` old is
dropped.  Returns the surviving entry (if any) and the persist calls
made. -/
def passStep (cfgID : Int) (now : Nat) (cur : String → Bool)
    (locFetch : String → Except Unit (List BusLocation))
    (persistOk : String → Bool)
    (e : String × BusState) : Option (String × BusState) × List PersistCall :=
  if cur e.1 then (some e, [])
  else
    let r := passCore cfgID now (getSeatsAfterFromBusLocation (locFetch e.1) e.1)
      (persistOk e.1) e.1 e.2
    if now - r.1.LastSeenAt > retentionWindow then (none, r.2) else (some (e.1, r.1), r.2)

/-- The second loop of `collectData` over every tracked entry. -/
def passagePass (cfgID : Int) (now : Nat) (cur : String → Bool)
    (locFetch : String → Except Unit (List BusLocation))
    (persistOk : String → Bool) : StateMap → StateMap × List PersistCall
  | [] => ([], [])
  | e :: rest =>
    let r1 := passStep cfgID now cur locFetch persistOk e
    let r2 := passagePass cfgID now cur locFetch persistOk rest
    (r1.1.toList ++ r2.1, r1.2 ++ r2.2)

/-- The final cleanup loop of `collectData`: entries older than
`ageCeiling` (since `FirstSeenAt`) are dropped regardless of state. -/
def cleanupPass (now : Nat) (m : StateMap) : StateMap :=
  m.filter (fun e => decide (now - e.2.FirstSeenAt ≤ ageCeiling))

/-- Go `Collector.collectData`, one tick: a snapshot-source error leaves
the map untouched and makes no persist call; otherwise the three loops
run in order.  Output: the new tracker map and the persist calls made. -/
def collectData (cfgID : Int) (now : Nat)
    (snapshot : Except Unit (List BusArrivalInfo))
    (locFetch : String → Except Unit (List BusLocation))
    (persistOk : String → Bool)
    (m : StateMap) : StateMap × List PersistCall :=
  match snapshot with
  | .error _ => (m, [])
  | .ok arrivals =>
    let m1 := processArrivals now arrivals m
    let r := passagePass cfgID now (currentB arrivals) locFetch persistOk m1
    (cleanupPass now r.1, r.2)

/-- Inputs of one tick: the clock, the snapshot fetch outcome, the
per-plate location fetch outcome and the per-plate persist outcome. -/
structure Tick where
  now : Nat
  snapshot : Except Unit (List BusArrivalInfo)
  locFetch : String → Except Unit (List BusLocation)
  persistOk : String → Bool

/-- One tick of the collector loop body. -/
def runTick (cfgID : Int) (t : Tick) (m : StateMap) : StateMap × List PersistCall :=
  collectData cfgID t.now t.snapshot t.locFetch t.persistOk m

/-- A sequence of ticks, accumulating all persist calls. -/
def runTicks (cfgID : Int) : List Tick → StateMap → StateMap × List PersistCall
  | [], m => (m, [])
  | t :: ts, m =>
    let r1 := runTick cfgID t m
    let r2 := runTicks cfgID ts r1.1
    (r2.1, r1.2 ++ r2.2)

/-- Whether plate `p` has a tracking entry after every tick of the
sequence (the same map entry throughout: within one tick an entry can
be created only before the removal passes, so presence at every tick
boundary excludes removal and re-creation). -/
def presentThroughoutB (cfgID : Int) (p : String) : List Tick → StateMap → Bool
  | [], _ => true
  | t :: ts, m =>
    let m1 := (runTick cfgID t m).1
    (alookup m1 p).isSome && presentThroughoutB cfgID p ts m1

/-- Persist calls attributed to plate `p`. -/
def callsFor (p : String) (calls : List PersistCall) : List PersistCall :=
  calls.filter (fun c => c.1.BusNumber == p)

/-- Number of successful persist calls for plate `p`. -/
def successCount (calls : List PersistCall) (p : String) : Nat :=
  (calls.filter (fun c => (c.1.BusNumber == p) && c.2)).length

/-- A sample tracking entry (first and last seen at time 0, 3 stops
away, 10 seats, not finalized) used in concrete instantiations. -/
def sampleBus : BusState :=
  { PlateNo := "A", FirstSeenAt := 0, LastSeenAt := 0, SeatsBefore := 10,
    LocationNo := 3, Recorded := false, PassedAt := none, RetryCount := 0 }

/-- A sample tick at time 30 in which the tracked plate is absent from
the snapshot, the confirmation source reports 4 seats for it, and the
persist call succeeds. -/
def sampleTick : Tick :=
  { now := 30, snapshot := .ok [],
    locFetch := fun _ => .ok [{ PlateNo := "A", StationSeq := 5, RemainSeatCnt := 4 }],
    persistOk := fun _ => true }

/-- The sample entry after its passage was noticed at time 0
(`PassedAt = some 0`). -/
def samplePassed : BusState :=
  { sampleBus with PassedAt := some 0 }

/-- A tick at time `n` whose snapshot reports plate `A` approaching
with the given seat count and stops-away ordinal. -/
def approachTick (n : Nat) (seats ord : Int) : Tick :=
  { now := n,
    snapshot := .ok [{ PlateNo := "A", RemainSeatCnt := seats, LocationNo1 := ord }],
    locFetch := fun _ => .error (), persistOk := fun _ => false }

/-- Monitoring configuration (Go `model.RouteConfig`, the fields the
supervisor reads). -/
structure RouteConfig where
  id : Int
  RouteID : String
  StationID : String
deriving DecidableEq

/-- Go `configCollector`: the running-worker handle kept per config
(the stop channel is abstracted away; stopping a worker is modelled by
removing its handle). -/
structure ConfigCollector where
  cfg : RouteConfig
deriving DecidableEq

/-- The supervisor worker map `map[int64]*configCollector`. -/
abbrev WorkerMap := List (Int × ConfigCollector)

/-- Membership of an ID in the `activeIDs` set of `syncConfigs`. -/
def activeIDs (configs : List RouteConfig) (i : Int) : Bool :=
  configs.any (fun c => c.id == i)

/-- First loop of `syncConfigs`: stop and remove every worker whose
config ID is not active.  Returns the surviving map and the stopped
IDs. -/
def stopPass (configs : List RouteConfig) (m : WorkerMap) : WorkerMap × List Int :=
  (m.filter (fun e => activeIDs configs e.1),
   (m.filter (fun e => !activeIDs configs e.1)).map Prod.fst)

/-- Second loop of `syncConfigs`: start a worker for every active
config with no running worker, keyed by config ID.  Returns the new map
and the started IDs. -/
def startPass : List RouteConfig → WorkerMap → WorkerMap × List Int
  | [], m => (m, [])
  | cfg :: rest, m =>
    if (alookup m cfg.id).isSome then startPass rest m
    else
      let r := startPass rest (m ++ [(cfg.id, { cfg := cfg })])
      (r.1, cfg.id :: r.2)

/-- Go `Collector.syncConfigs`: a config-fetch error leaves the worker
map untouched; otherwise stale workers are stopped and missing workers
started.  Output: new worker map, stopped IDs, started IDs. -/
def syncConfigs (fetch : Except Unit (List RouteConfig)) (m : WorkerMap) :
    WorkerMap × List Int × List Int :=
  match fetch with
  | .error _ => (m, [], [])
  | .ok configs =>
    let r1 := stopPass configs m
    let r2 := startPass configs r1.1
    (r2.1, r1.2, r2.2)

/-- Lifecycle state of a Go `Collector`: `running` models
`mainCancel != nil`, `collectors` the worker map. -/
structure CollectorState where
  running : Bool
  collectors : WorkerMap
deriving DecidableEq

/-- Go `Collector.IsRunning`: true iff `mainCancel != nil`. -/
def CollectorState.IsRunning (c : CollectorState) : Bool := c.running

/-- Go `Collector.Stop`: a no-op when `mainCancel == nil`; otherwise it
cancels, closes and deletes every worker, waits, and clears
`mainCancel`. -/
def CollectorState.Stop (c : CollectorState) : CollectorState :=
  if c.running then { running := false, collectors := [] } else c

/-! ## Basic association-list lemmas -/

theorem alookup_eq_none {κ β : Type} [DecidableEq κ] (m : List (κ × β)) (k : κ) :
    alookup m k = none ↔ k ∉ m.map Prod.fst := by
  induction m with
  | nil => simp [alookup]
  | cons e rest ih =>
    by_cases h : e.1 = k
    · simp [alookup, h]
    · simp only [alookup, if_neg h, List.map_cons, List.mem_cons, ih]
      have h2 : ¬ k = e.1 := fun hk => h hk.symm
      tauto

theorem alookup_append {κ β : Type} [DecidableEq κ] (m1 m2 : List (κ × β)) (k : κ) :
    alookup (m1 ++ m2) k = (alookup m1 k).or (alookup m2 k) := by
  induction m1 with
  | nil => simp [alookup]
  | cons e rest ih => by_cases h : e.1 = k <;> simp [alookup, h, ih]

theorem alookup_map_update (m : StateMap) (q : String) (f : BusState → BusState) (p : String) :
    alookup (m.map fun e => if e.1 = q then (e.1, f e.2) else e) p =
      if p = q then (alookup m p).map f else alookup m p := by
  induction m with
  | nil => simp [alookup]
  | cons e rest ih =>
    by_cases h1 : e.1 = q <;> by_cases h2 : p = q <;> by_cases h3 : e.1 = p <;>
      simp_all [alookup]

/-! ## Stage 1: the snapshot-processing loop, one plate at a time -/

theorem updateBusState_fields (now : Nat) (a : BusArrivalInfo) (s : BusState) :
    (updateBusState now a s).PlateNo = s.PlateNo ∧
    (updateBusState now a s).FirstSeenAt = s.FirstSeenAt ∧
    (updateBusState now a s).LastSeenAt = now ∧
    (updateBusState now a s).Recorded = s.Recorded ∧
    (updateBusState now a s).PassedAt = s.PassedAt ∧
    (updateBusState now a s).RetryCount = s.RetryCount := by
  unfold updateBusState
  split_ifs <;> simp

theorem step1Effect_nil (now : Nat) (p : String) (o : Option BusState) :
    step1Effect now p [] o = o := rfl

theorem step1Effect_cons (now : Nat) (p : String) (a : BusArrivalInfo)
    (rest : List BusArrivalInfo) (o : Option BusState) :
    step1Effect now p (a :: rest) o = step1Effect now p rest (step1Fn now p o a) := rfl

theorem step1Fn_skip (now : Nat) (p : String) (o : Option BusState) (a : BusArrivalInfo)
    (h : a.PlateNo = "" ∨ a.PlateNo ≠ p) : step1Fn now p o a = o := if_pos h

theorem step1Fn_hit (now : Nat) (p : String) (o : Option BusState) (a : BusArrivalInfo)
    (h : ¬(a.PlateNo = "" ∨ a.PlateNo ≠ p)) :
    step1Fn now p o a =
      match o with
      | some s => some (updateBusState now a s)
      | none => some (newBusState now a) := if_neg h

theorem currentB_cons_false (arrivals : List BusArrivalInfo) (a : BusArrivalInfo)
    (p : String) (h : currentB (a :: arrivals) p = false) :
    (a.PlateNo = "" ∨ a.PlateNo ≠ p) ∧ currentB arrivals p = false := by
  simp only [currentB, List.any_cons, Bool.or_eq_false_iff] at h
  obtain ⟨h1, h2⟩ := h
  refine ⟨?_, h2⟩
  rcases Bool.and_eq_false_iff.mp h1 with hx | hx
  · exact Or.inl (by simpa using hx)
  · exact Or.inr (by simpa using hx)

theorem processArrival_alookup (now : Nat) (m : StateMap) (a : BusArrivalInfo) (p : String) :
    alookup (processArrival now m a) p = step1Fn now p (alookup m p) a := by
  by_cases he : a.PlateNo = ""
  · rw [step1Fn_skip now p _ a (Or.inl he)]
    simp [processArrival, he]
  · by_cases hp : a.PlateNo = p
    · subst hp
      rw [step1Fn_hit now a.PlateNo _ a (by simp [he])]
      by_cases hs : (alookup m a.PlateNo).isSome
      · obtain ⟨s, hsome⟩ := Option.isSome_iff_exists.mp hs
        simp [processArrival, he, hs, alookup_map_update, hsome]
      · have hnone := Option.not_isSome_iff_eq_none.mp hs
        simp [processArrival, he, hs, alookup_append, hnone, alookup]
    · rw [step1Fn_skip now p _ a (Or.inr hp)]
      have hp2 : ¬ p = a.PlateNo := fun hx => hp hx.symm
      by_cases hs : (alookup m a.PlateNo).isSome
      · simp [processArrival, he, hs, alookup_map_update, hp2]
      · simp [processArrival, he, hs, alookup_append, alookup, hp]

theorem processArrivals_alookup (now : Nat) (arrivals : List BusArrivalInfo)
    (m : StateMap) (p : String) :
    alookup (processArrivals now arrivals m) p
      = step1Effect now p arrivals (alookup m p) := by
  induction arrivals generalizing m with
  | nil => rfl
  | cons a rest ih =>
    show alookup (processArrivals now rest (processArrival now m a)) p = _
    rw [ih, processArrival_alookup, step1Effect_cons]

theorem step1Effect_not_current (now : Nat) (p : String) (arrivals : List BusArrivalInfo)
    (o : Option BusState) (h : currentB arrivals p = false) :
    step1Effect now p arrivals o = o := by
  induction arrivals generalizing o with
  | nil => rfl
  | cons a rest ih =>
    obtain ⟨hcond, h2⟩ := currentB_cons_false rest a p h
    rw [step1Effect_cons, step1Fn_skip now p o a hcond]
    exact ih o h2

theorem step1Effect_isSome (now : Nat) (p : String) (arrivals : List BusArrivalInfo)
    (o : Option BusState) (h : o.isSome) :
    (step1Effect now p arrivals o).isSome := by
  induction arrivals generalizing o with
  | nil => exact h
  | cons a rest ih =>
    rw [step1Effect_cons]
    apply ih
    by_cases hcond : a.PlateNo = "" ∨ a.PlateNo ≠ p
    · rwa [step1Fn_skip now p o a hcond]
    · rw [step1Fn_hit now p o a hcond]
      cases o <;> rfl

theorem step1Effect_fields (now : Nat) (p : String) (arrivals : List BusArrivalInfo) :
    ∀ (o : Option BusState) (s' : BusState), step1Effect now p arrivals o = some s' →
      (∃ s, o = some s ∧ s'.PlateNo = s.PlateNo ∧ s'.FirstSeenAt = s.FirstSeenAt
        ∧ s'.Recorded = s.Recorded ∧ s'.PassedAt = s.PassedAt
        ∧ s'.RetryCount = s.RetryCount
        ∧ (s'.LastSeenAt = s.LastSeenAt ∨ s'.LastSeenAt = now))
      ∨ (o = none ∧ s'.FirstSeenAt = now ∧ s'.LastSeenAt = now ∧ s'.Recorded = false
        ∧ s'.PassedAt = none ∧ s'.RetryCount = 0) := by
  induction arrivals with
  | nil =>
    intro o s' h
    cases o with
    | none => exact absurd h (by simp [step1Effect])
    | some s =>
      left
      refine ⟨s, rfl, ?_⟩
      have hss : s = s' := by simpa [step1Effect] using h
      subst hss
      simp
  | cons a rest ih =>
    intro o s' h
    rw [step1Effect_cons] at h
    by_cases hcond : a.PlateNo = "" ∨ a.PlateNo ≠ p
    · rw [step1Fn_skip now p o a hcond] at h
      exact ih o s' h
    · rw [step1Fn_hit now p o a hcond] at h
      cases o with
      | some s =>
        rcases ih _ s' h with ⟨smid, hmid, hpl, hfs, hrec, hpa, hrc, hls⟩ | ⟨hmid, _⟩
        · rw [Option.some.injEq] at hmid
          subst hmid
          obtain ⟨u1, u2, u3, u4, u5, u6⟩ := updateBusState_fields now a s
          refine Or.inl ⟨s, rfl, ?_, ?_, ?_, ?_, ?_, ?_⟩
          · rw [hpl, u1]
          · rw [hfs, u2]
          · rw [hrec, u4]
          · rw [hpa, u5]
          · rw [hrc, u6]
          · right
            rcases hls with hx | hx
            · rw [hx, u3]
            · exact hx
        · exact absurd hmid (by simp)
      | none =>
        rcases ih _ s' h with ⟨smid, hmid, hpl, hfs, hrec, hpa, hrc, hls⟩ | ⟨hmid, _⟩
        · rw [Option.some.injEq] at hmid
          subst hmid
          refine Or.inr ⟨rfl, by rw [hfs]; rfl, ?_, by rw [hrec]; rfl,
            by rw [hpa]; rfl, by rw [hrc]; rfl⟩
          rcases hls with hx | hx
          · rw [hx]; rfl
          · exact hx
        · exact absurd hmid (by simp)

theorem step1Effect_current (now : Nat) (p : String) (arrivals : List BusArrivalInfo)
    (h : currentB arrivals p = true) :
    ∀ o : Option BusState, ∃ s', step1Effect now p arrivals o = some s'
      ∧ s'.LastSeenAt = now := by
  induction arrivals with
  | nil => exact absurd h (by simp [currentB])
  | cons a rest ih =>
    intro o
    by_cases hcond : a.PlateNo = "" ∨ a.PlateNo ≠ p
    · have hrest : currentB rest p = true := by
        simp only [currentB, List.any_cons, Bool.or_eq_true] at h
        rcases h with hx | hx
        · exfalso
          rcases hcond with hc | hc
          · simp [hc] at hx
          · simp [hc] at hx
        · exact hx
      rw [step1Effect_cons, step1Fn_skip now p o a hcond]
      exact ih hrest o
    · have hmid : ∃ smid, step1Fn now p o a = some smid ∧ smid.LastSeenAt = now := by
        rw [step1Fn_hit now p o a hcond]
        cases o with
        | some s => exact ⟨updateBusState now a s, rfl, (updateBusState_fields now a s).2.2.1⟩
        | none => exact ⟨newBusState now a, rfl, rfl⟩
      obtain ⟨smid, hmid1, hmid2⟩ := hmid
      rw [step1Effect_cons, hmid1]
      obtain ⟨s', hs'⟩ := Option.isSome_iff_exists.mp
        (step1Effect_isSome now p rest (some smid) rfl)
      refine ⟨s', hs', ?_⟩
      rcases step1Effect_fields now p rest (some smid) s' hs' with
        ⟨s0, hs0, _, _, _, _, _, hls⟩ | ⟨hmid', _, hls, _⟩
      · rw [Option.some.injEq] at hs0
        subst hs0
        rcases hls with hx | hx
        · rw [hx, hmid2]
        · exact hx
      · exact absurd hmid' (by simp)

/-! ## Persist-call accounting helpers -/

theorem callsFor_append (p : String) (l1 l2 : List PersistCall) :
    callsFor p (l1 ++ l2) = callsFor p l1 ++ callsFor p l2 := by
  simp [callsFor, List.filter_append]

theorem successCount_append (l1 l2 : List PersistCall) (p : String) :
    successCount (l1 ++ l2) p = successCount l1 p + successCount l2 p := by
  simp [successCount, List.filter_append]

theorem callsFor_eq_self (p : String) (l : List PersistCall)
    (h : ∀ c ∈ l, c.1.BusNumber = p) : callsFor p l = l := by
  rw [callsFor, List.filter_eq_self]
  intro c hc
  simp [h c hc]

theorem callsFor_eq_nil (p : String) (l : List PersistCall)
    (h : ∀ c ∈ l, c.1.BusNumber ≠ p) : callsFor p l = [] := by
  rw [callsFor, List.filter_eq_nil]
  intro c hc
  simp [h c hc]

theorem successCount_eq_zero_of_ne (l : List PersistCall) (p : String)
    (h : ∀ c ∈ l, c.1.BusNumber ≠ p) : successCount l p = 0 := by
  rw [successCount, List.length_eq_zero, List.filter_eq_nil]
  intro c hc
  simp [h c hc]

theorem successCount_callsFor (l : List PersistCall) (p : String) :
    successCount (callsFor p l) p = successCount l p := by
  induction l with
  | nil => rfl
  | cons c rest ih =>
    by_cases h : c.1.BusNumber = p
    · by_cases h2 : c.2 = true <;>
        simp [callsFor, successCount, List.filter_cons, h, h2] at ih ⊢ <;>
        simpa [callsFor, successCount] using ih
    · simp [callsFor, successCount, List.filter_cons, h] at ih ⊢
      simpa [callsFor, successCount] using ih

/-! ## Stage 2: the passage loop, one entry at a time -/

theorem passCore_recorded (cfgID : Int) (now : Nat) (confirm : Option Int) (ok : Bool)
    (p : String) (s : BusState) (h : s.Recorded = true) :
    passCore cfgID now confirm ok p s = (s, []) := by
  simp [passCore, h]

theorem passCore_confirm_some (cfgID : Int) (now : Nat) (v : Int) (ok : Bool)
    (p : String) (s : BusState) (h : s.Recorded = false) :
    passCore cfgID now (some v) ok p s =
      ((if ok then
          { (if s.PassedAt = none then { s with PassedAt := some now } else s) with
            Recorded := true }
        else (if s.PassedAt = none then { s with PassedAt := some now } else s)),
       [({ RouteConfigID := cfgID, BusNumber := p, ArrivalTime := s.LastSeenAt,
           SeatsBefore := s.SeatsBefore, SeatsAfter := some v }, ok)]) := by
  by_cases hpa : s.PassedAt = none <;> cases ok <;> simp [passCore, h, hpa]

theorem passCore_confirm_none_pending (cfgID : Int) (now : Nat) (ok : Bool)
    (p : String) (s : BusState) (t0 : Nat)
    (h : s.Recorded = false) (hpa : s.PassedAt = some t0)
    (ht : now - t0 < confirmTimeout) :
    passCore cfgID now none ok p s = ({ s with RetryCount := s.RetryCount + 1 }, []) := by
  have hpa2 : ¬ s.PassedAt = none := by simp [hpa]
  simp [passCore, h, hpa2, hpa, ht]

theorem passCore_confirm_none_first (cfgID : Int) (now : Nat) (ok : Bool)
    (p : String) (s : BusState) (h : s.Recorded = false) (hpa : s.PassedAt = none) :
    passCore cfgID now none ok p s
      = ({ s with PassedAt := some now, RetryCount := s.RetryCount + 1 }, []) := by
  simp [passCore, h, hpa, confirmTimeout]

theorem passCore_confirm_none_timeout (cfgID : Int) (now : Nat) (ok : Bool)
    (p : String) (s : BusState) (t0 : Nat)
    (h : s.Recorded = false) (hpa : s.PassedAt = some t0)
    (ht : ¬ now - t0 < confirmTimeout) :
    passCore cfgID now none ok p s =
      ((if ok then { s with RetryCount := s.RetryCount + 1, Recorded := true }
        else { s with RetryCount := s.RetryCount + 1 }),
       [({ RouteConfigID := cfgID, BusNumber := p, ArrivalTime := s.LastSeenAt,
           SeatsBefore := s.SeatsBefore, SeatsAfter := none }, ok)]) := by
  have hpa2 : ¬ s.PassedAt = none := by simp [hpa]
  cases ok <;> simp [passCore, h, hpa2, hpa, ht]

theorem passCore_spec (cfgID : Int) (now : Nat) (confirm : Option Int) (ok : Bool)
    (p : String) (s : BusState) :
    (passCore cfgID now confirm ok p s).1.PlateNo = s.PlateNo
    ∧ (passCore cfgID now confirm ok p s).1.FirstSeenAt = s.FirstSeenAt
    ∧ (passCore cfgID now confirm ok p s).1.LastSeenAt = s.LastSeenAt
    ∧ (∀ c ∈ (passCore cfgID now confirm ok p s).2, c.1.BusNumber = p)
    ∧ successCount (passCore cfgID now confirm ok p s).2 p ≤ 1
    ∧ ((passCore cfgID now confirm ok p s).1.Recorded = true ↔
        (s.Recorded = true ∨ successCount (passCore cfgID now confirm ok p s).2 p = 1))
    ∧ (ok = false → (passCore cfgID now confirm ok p s).1.Recorded = s.Recorded) := by
  by_cases h : s.Recorded = true
  · rw [passCore_recorded cfgID now confirm ok p s h]
    simp [successCount, h]
  · replace h : s.Recorded = false := by simpa using h
    cases confirm with
    | some v =>
      rw [passCore_confirm_some cfgID now v ok p s h]
      by_cases hpa : s.PassedAt = none <;> cases ok <;>
        simp [successCount, h, hpa]
    | none =>
      cases hpa : s.PassedAt with
      | none =>
        rw [passCore_confirm_none_first cfgID now ok p s h hpa]
        simp [successCount, h]
      | some t0 =>
        by_cases ht : now - t0 < confirmTimeout
        · rw [passCore_confirm_none_pending cfgID now ok p s t0 h hpa ht]
          simp [successCount, h]
        · rw [passCore_confirm_none_timeout cfgID now ok p s t0 h hpa ht]
          cases ok <;> simp [successCount, h]

theorem passStep_cur (cfgID : Int) (now : Nat) (cur : String → Bool)
    (locFetch : String → Except Unit (List BusLocation)) (persistOk : String → Bool)
    (e : String × BusState) (h : cur e.1 = true) :
    passStep cfgID now cur locFetch persistOk e = (some e, []) := by
  simp [passStep, h]

theorem passStep_fst (cfgID : Int) (now : Nat) (cur : String → Bool)
    (locFetch : String → Except Unit (List BusLocation)) (persistOk : String → Bool)
    (e : String × BusState) (h : cur e.1 = false) :
    (passStep cfgID now cur locFetch persistOk e).1
      = (if now - (passCore cfgID now (getSeatsAfterFromBusLocation (locFetch e.1) e.1)
            (persistOk e.1) e.1 e.2).1.LastSeenAt > retentionWindow then none
         else some (e.1, (passCore cfgID now
           (getSeatsAfterFromBusLocation (locFetch e.1) e.1)
           (persistOk e.1) e.1 e.2).1)) := by
  by_cases hr : now - (passCore cfgID now (getSeatsAfterFromBusLocation (locFetch e.1) e.1)
      (persistOk e.1) e.1 e.2).1.LastSeenAt > retentionWindow <;>
    simp [passStep, h, hr]

theorem passStep_snd (cfgID : Int) (now : Nat) (cur : String → Bool)
    (locFetch : String → Except Unit (List BusLocation)) (persistOk : String → Bool)
    (e : String × BusState) (h : cur e.1 = false) :
    (passStep cfgID now cur locFetch persistOk e).2
      = (passCore cfgID now (getSeatsAfterFromBusLocation (locFetch e.1) e.1)
          (persistOk e.1) e.1 e.2).2 := by
  by_cases hr : now - (passCore cfgID now (getSeatsAfterFromBusLocation (locFetch e.1) e.1)
      (persistOk e.1) e.1 e.2).1.LastSeenAt > retentionWindow <;>
    simp [passStep, h, hr]

theorem passStep_key (cfgID : Int) (now : Nat) (cur : String → Bool)
    (locFetch : String → Except Unit (List BusLocation)) (persistOk : String → Bool)
    (e : String × BusState) (q : String) (s' : BusState)
    (h : (passStep cfgID now cur locFetch persistOk e).1 = some (q, s')) : q = e.1 := by
  by_cases hc : cur e.1 = true
  · rw [passStep_cur cfgID now cur locFetch persistOk e hc] at h
    have he : e = (q, s') := by simpa using h
    rw [he]
  · rw [Bool.not_eq_true] at hc
    rw [passStep_fst cfgID now cur locFetch persistOk e hc] at h
    split at h
    · exact absurd h (by simp)
    · have := (Option.some.injEq _ _).mp h
      exact (congrArg Prod.fst this).symm ▸ rfl

theorem passStep_calls_bus (cfgID : Int) (now : Nat) (cur : String → Bool)
    (locFetch : String → Except Unit (List BusLocation)) (persistOk : String → Bool)
    (e : String × BusState) :
    ∀ c ∈ (passStep cfgID now cur locFetch persistOk e).2, c.1.BusNumber = e.1 := by
  by_cases hc : cur e.1 = true
  · rw [passStep_cur cfgID now cur locFetch persistOk e hc]
    simp
  · rw [Bool.not_eq_true] at hc
    rw [passStep_snd cfgID now cur locFetch persistOk e hc]
    exact (passCore_spec cfgID now _ _ e.1 e.2).2.2.2.1

theorem passagePass_cons (cfgID : Int) (now : Nat) (cur : String → Bool)
    (locFetch : String → Except Unit (List BusLocation)) (persistOk : String → Bool)
    (e : String × BusState) (rest : StateMap) :
    passagePass cfgID now cur locFetch persistOk (e :: rest)
      = ((passStep cfgID now cur locFetch persistOk e).1.toList
          ++ (passagePass cfgID now cur locFetch persistOk rest).1,
         (passStep cfgID now cur locFetch persistOk e).2
          ++ (passagePass cfgID now cur locFetch persistOk rest).2) := rfl

theorem passagePass_alookup_none (cfgID : Int) (now : Nat) (cur : String → Bool)
    (locFetch : String → Except Unit (List BusLocation)) (persistOk : String → Bool)
    (m : StateMap) (p : String) (h : alookup m p = none) :
    alookup (passagePass cfgID now cur locFetch persistOk m).1 p = none
    ∧ callsFor p (passagePass cfgID now cur locFetch persistOk m).2 = [] := by
  induction m with
  | nil => exact ⟨rfl, rfl⟩
  | cons e rest ih =>
    rw [show alookup (e :: rest) p = if e.1 = p then some e.2 else alookup rest p from rfl] at h
    by_cases hx : e.1 = p
    · rw [if_pos hx] at h
      exact absurd h (by simp)
    · rw [if_neg hx] at h
      obtain ⟨ih1, ih2⟩ := ih h
      rw [passagePass_cons]
      constructor
      · rw [alookup_append, ih1]
        rcases ho : (passStep cfgID now cur locFetch persistOk e).1 with _ | ⟨q, s'⟩
        · simp [alookup]
        · have hq := passStep_key cfgID now cur locFetch persistOk e q s' ho
          subst hq
          simp [alookup, hx]
      · rw [callsFor_append, ih2,
          callsFor_eq_nil p _
            (fun c hc => by
              rw [passStep_calls_bus cfgID now cur locFetch persistOk e c hc]
              exact hx)]
        rfl

theorem passagePass_alookup_some (cfgID : Int) (now : Nat) (cur : String → Bool)
    (locFetch : String → Except Unit (List BusLocation)) (persistOk : String → Bool)
    (m : StateMap) (p : String) (s : BusState)
    (hnd : (m.map Prod.fst).Nodup) (h : alookup m p = some s) :
    alookup (passagePass cfgID now cur locFetch persistOk m).1 p
      = ((passStep cfgID now cur locFetch persistOk (p, s)).1).map Prod.snd
    ∧ callsFor p (passagePass cfgID now cur locFetch persistOk m).2
      = (passStep cfgID now cur locFetch persistOk (p, s)).2 := by
  induction m with
  | nil => exact absurd h (by simp [alookup])
  | cons e rest ih =>
    rw [List.map_cons, List.nodup_cons] at hnd
    obtain ⟨hnotin, hndrest⟩ := hnd
    rw [show alookup (e :: rest) p = if e.1 = p then some e.2 else alookup rest p from rfl] at h
    rw [passagePass_cons]
    by_cases hx : e.1 = p
    · rw [if_pos hx] at h
      have hs : e.2 = s := by simpa using h
      have hep : e = (p, s) := by
        calc e = (e.1, e.2) := rfl
        _ = (p, s) := by rw [hx, hs]
      have hrest_none : alookup rest p = none := by
        rw [alookup_eq_none]
        rw [hx] at hnotin
        exact hnotin
      obtain ⟨r1, r2⟩ := passagePass_alookup_none cfgID now cur locFetch persistOk
        rest p hrest_none
      constructor
      · rw [alookup_append, r1, ← hep]
        rcases ho : (passStep cfgID now cur locFetch persistOk e).1 with _ | ⟨q, s1⟩
        · simp [alookup]
        · have hq := passStep_key cfgID now cur locFetch persistOk e q s1 ho
          subst hq
          simp [alookup, hx]
      · rw [callsFor_append, r2, ← hep, List.append_nil]
        exact callsFor_eq_self p _
          (fun c hc => by
            rw [passStep_calls_bus cfgID now cur locFetch persistOk e c hc, hx])
    · rw [if_neg hx] at h
      obtain ⟨ih1, ih2⟩ := ih hndrest h
      constructor
      · rw [alookup_append, ih1]
        rcases ho : (passStep cfgID now cur locFetch persistOk e).1 with _ | ⟨q, s1⟩
        · simp [alookup]
        · have hq := passStep_key cfgID now cur locFetch persistOk e q s1 ho
          subst hq
          cases hv : ((passStep cfgID now cur locFetch persistOk (p, s)).1).map Prod.snd with
          | none => simp [alookup, hx, hv]
          | some s2 => simp [alookup, hx, hv]
      · rw [callsFor_append, ih2,
          callsFor_eq_nil p _
            (fun c hc => by
              rw [passStep_calls_bus cfgID now cur locFetch persistOk e c hc]
              exact hx),
          List.nil_append]

/-! ## Stage 3: the cleanup loop -/

theorem cleanupPass_alookup_none (now : Nat) (m : StateMap) (p : String)
    (h : alookup m p = none) :
    alookup (cleanupPass now m) p = none := by
  rw [alookup_eq_none] at h ⊢
  intro hmem
  exact h (((List.filter_sublist m).map Prod.fst).subset hmem)

theorem cleanupPass_alookup_some (now : Nat) (m : StateMap) (p : String) (s : BusState)
    (hnd : (m.map Prod.fst).Nodup) (h : alookup m p = some s) :
    alookup (cleanupPass now m) p
      = if now - s.FirstSeenAt ≤ ageCeiling then some s else none := by
  induction m with
  | nil => exact absurd h (by simp [alookup])
  | cons e rest ih =>
    rw [List.map_cons, List.nodup_cons] at hnd
    obtain ⟨hnotin, hndrest⟩ := hnd
    rw [show alookup (e :: rest) p = if e.1 = p then some e.2 else alookup rest p from rfl] at h
    by_cases hx : e.1 = p
    · rw [if_pos hx] at h
      have hs : e.2 = s := by simpa using h
      have hrest_none : alookup rest p = none := by
        rw [alookup_eq_none]
        rw [hx] at hnotin
        exact hnotin
      by_cases hkeep : now - e.2.FirstSeenAt ≤ ageCeiling
      · rw [show cleanupPass now (e :: rest)
            = e :: cleanupPass now rest from by
              simp only [cleanupPass, List.filter_cons]
              simp
              omega]
        rw [show alookup (e :: cleanupPass now rest) p
            = if e.1 = p then some e.2 else alookup (cleanupPass now rest) p from rfl,
          if_pos hx, hs, if_pos (show now - s.FirstSeenAt ≤ ageCeiling by
            rw [← hs]; exact hkeep)]
      · rw [show cleanupPass now (e :: rest) = cleanupPass now rest from by
              simp only [cleanupPass, List.filter_cons]
              simp
              omega]
        rw [cleanupPass_alookup_none now rest p hrest_none,
          if_neg (show ¬ now - s.FirstSeenAt ≤ ageCeiling by
            rw [← hs]; exact hkeep)]
    · rw [if_neg hx] at h
      by_cases hkeep : now - e.2.FirstSeenAt ≤ ageCeiling
      · rw [show cleanupPass now (e :: rest)
            = e :: cleanupPass now rest from by
              simp only [cleanupPass, List.filter_cons]
              simp
              omega]
        rw [show alookup (e :: cleanupPass now rest) p
            = if e.1 = p then some e.2 else alookup (cleanupPass now rest) p from rfl,
          if_neg hx]
        exact ih hndrest h
      · rw [show cleanupPass now (e :: rest) = cleanupPass now rest from by
              simp only [cleanupPass, List.filter_cons]
              simp
              omega]
        exact ih hndrest h

/-! ## Key-uniqueness preservation -/

theorem nodupKeys_processArrival (now : Nat) (m : StateMap) (a : BusArrivalInfo)
    (h : (m.map Prod.fst).Nodup) :
    ((processArrival now m a).map Prod.fst).Nodup := by
  unfold processArrival
  split_ifs with h1 h2
  · exact h
  · have hkeys : (m.map (fun e =>
        if e.1 = a.PlateNo then (e.1, updateBusState now a e.2) else e)).map Prod.fst
        = m.map Prod.fst := by
      rw [List.map_map]
      apply List.map_congr_left
      intro e _
      by_cases hx : e.1 = a.PlateNo <;> simp [hx]
    rwa [hkeys]
  · have hnotin : a.PlateNo ∉ m.map Prod.fst :=
      (alookup_eq_none m a.PlateNo).mp (Option.not_isSome_iff_eq_none.mp h2)
    rw [List.map_append, List.nodup_append]
    refine ⟨h, by simp, ?_⟩
    intro x hx hmem
    simp only [List.map_cons, List.map_nil, List.mem_singleton] at hmem
    subst hmem
    exact hnotin hx

theorem nodupKeys_processArrivals (now : Nat) (arrivals : List BusArrivalInfo)
    (m : StateMap) (h : (m.map Prod.fst).Nodup) :
    ((processArrivals now arrivals m).map Prod.fst).Nodup := by
  induction arrivals generalizing m with
  | nil => exact h
  | cons a rest ih =>
    exact ih (processArrival now m a) (nodupKeys_processArrival now m a h)

theorem keys_passagePass_sublist (cfgID : Int) (now : Nat) (cur : String → Bool)
    (locFetch : String → Except Unit (List BusLocation)) (persistOk : String → Bool)
    (m : StateMap) :
    ((passagePass cfgID now cur locFetch persistOk m).1.map Prod.fst).Sublist
      (m.map Prod.fst) := by
  induction m with
  | nil => exact List.Sublist.refl _
  | cons e rest ih =>
    rw [passagePass_cons, List.map_cons]
    rcases ho : (passStep cfgID now cur locFetch persistOk e).1 with _ | ⟨q, s1⟩
    · simp only [Option.toList, List.nil_append]
      exact ih.trans (List.sublist_cons_self _ _)
    · have hq := passStep_key cfgID now cur locFetch persistOk e q s1 ho
      subst hq
      simp only [Option.toList, List.cons_append, List.nil_append, List.map_cons]
      exact ih.cons₂ e.1

theorem nodupKeys_collectData (cfgID : Int) (now : Nat)
    (snapshot : Except Unit (List BusArrivalInfo))
    (locFetch : String → Except Unit (List BusLocation)) (persistOk : String → Bool)
    (m : StateMap) (h : (m.map Prod.fst).Nodup) :
    (((collectData cfgID now snapshot locFetch persistOk m).1).map Prod.fst).Nodup := by
  cases snapshot with
  | error e => exact h
  | ok arrivals =>
    have h1 := nodupKeys_processArrivals now arrivals m h
    have h2 := (keys_passagePass_sublist cfgID now (currentB arrivals) locFetch persistOk
      (processArrivals now arrivals m)).nodup h1
    exact (((List.filter_sublist _).map Prod.fst).nodup h2)

/-! ## One full tick, one plate at a time -/

theorem collectData_ok_some (cfgID : Int) (now : Nat) (arrivals : List BusArrivalInfo)
    (locFetch : String → Except Unit (List BusLocation)) (persistOk : String → Bool)
    (m : StateMap) (p : String) (s1 : BusState)
    (hnd : (m.map Prod.fst).Nodup)
    (h1 : step1Effect now p arrivals (alookup m p) = some s1) :
    alookup (collectData cfgID now (.ok arrivals) locFetch persistOk m).1 p
      = (((passStep cfgID now (currentB arrivals) locFetch persistOk (p, s1)).1).map
          Prod.snd).bind
          (fun s2 => if now - s2.FirstSeenAt ≤ ageCeiling then some s2 else none)
    ∧ callsFor p (collectData cfgID now (.ok arrivals) locFetch persistOk m).2
      = (passStep cfgID now (currentB arrivals) locFetch persistOk (p, s1)).2 := by
  have hm1 : alookup (processArrivals now arrivals m) p = some s1 := by
    rw [processArrivals_alookup]
    exact h1
  have hnd1 := nodupKeys_processArrivals now arrivals m hnd
  obtain ⟨hp1, hp2⟩ := passagePass_alookup_some cfgID now (currentB arrivals) locFetch
    persistOk (processArrivals now arrivals m) p s1 hnd1 hm1
  have hnd2 := (keys_passagePass_sublist cfgID now (currentB arrivals) locFetch persistOk
    (processArrivals now arrivals m)).nodup hnd1
  constructor
  · show alookup (cleanupPass now _) p = _
    cases ho : ((passStep cfgID now (currentB arrivals) locFetch persistOk (p, s1)).1) with
    | none =>
      have hp1n : alookup (passagePass cfgID now (currentB arrivals) locFetch persistOk
          (processArrivals now arrivals m)).1 p = none := by
        rw [hp1, ho]
        rfl
      rw [cleanupPass_alookup_none now _ p hp1n]
      rfl
    | some e2 =>
      have hp1s : alookup (passagePass cfgID now (currentB arrivals) locFetch persistOk
          (processArrivals now arrivals m)).1 p = some e2.2 := by
        rw [hp1, ho]
        rfl
      rw [cleanupPass_alookup_some now _ p e2.2 hnd2 hp1s]
      rfl
  · exact hp2

theorem collectData_ok_none (cfgID : Int) (now : Nat) (arrivals : List BusArrivalInfo)
    (locFetch : String → Except Unit (List BusLocation)) (persistOk : String → Bool)
    (m : StateMap) (p : String)
    (h1 : step1Effect now p arrivals (alookup m p) = none) :
    alookup (collectData cfgID now (.ok arrivals) locFetch persistOk m).1 p = none
    ∧ callsFor p (collectData cfgID now (.ok arrivals) locFetch persistOk m).2 = [] := by
  have hm1 : alookup (processArrivals now arrivals m) p = none := by
    rw [processArrivals_alookup]
    exact h1
  obtain ⟨hp1, hp2⟩ := passagePass_alookup_none cfgID now (currentB arrivals) locFetch
    persistOk (processArrivals now arrivals m) p hm1
  exact ⟨cleanupPass_alookup_none now _ p hp1, hp2⟩

theorem bind_clean_eq_some (now : Nat) (o : Option (String × BusState)) (s' : BusState)
    (h : (o.map Prod.snd).bind
        (fun s2 => if now - s2.FirstSeenAt ≤ ageCeiling then some s2 else none) = some s') :
    ∃ q, o = some (q, s') := by
  cases o with
  | none => exact absurd h (by simp)
  | some e =>
    refine ⟨e.1, ?_⟩
    have he : (if now - e.2.FirstSeenAt ≤ ageCeiling then some e.2 else none) = some s' := h
    split at he
    · have : e.2 = s' := by simpa using he
      rw [← this]
    · exact absurd he (by simp)

theorem passStep_state_of_cur (cfgID : Int) (now : Nat) (cur : String → Bool)
    (locFetch : String → Except Unit (List BusLocation)) (persistOk : String → Bool)
    (p : String) (s s' : BusState) (hcur : cur p = true)
    (h : (passStep cfgID now cur locFetch persistOk (p, s)).1 = some (p, s')) : s' = s := by
  rw [passStep_cur cfgID now cur locFetch persistOk (p, s) hcur] at h
  have := (Option.some.injEq _ _).mp h
  exact (congrArg Prod.snd this).symm

theorem passStep_state_of_absent (cfgID : Int) (now : Nat) (cur : String → Bool)
    (locFetch : String → Except Unit (List BusLocation)) (persistOk : String → Bool)
    (p : String) (s s' : BusState) (hcur : cur p = false)
    (h : (passStep cfgID now cur locFetch persistOk (p, s)).1 = some (p, s')) :
    s' = (passCore cfgID now (getSeatsAfterFromBusLocation (locFetch p) p)
      (persistOk p) p s).1 := by
  rw [passStep_fst cfgID now cur locFetch persistOk (p, s) hcur] at h
  split at h
  · exact absurd h (by simp)
  · have := (Option.some.injEq _ _).mp h
    exact (congrArg Prod.snd this).symm

theorem collectData_state_extract (cfgID : Int) (now : Nat)
    (arrivals : List BusArrivalInfo)
    (locFetch : String → Except Unit (List BusLocation)) (persistOk : String → Bool)
    (m : StateMap) (p : String) (s1 s' : BusState)
    (hnd : (m.map Prod.fst).Nodup)
    (h1 : step1Effect now p arrivals (alookup m p) = some s1)
    (h' : alookup (collectData cfgID now (.ok arrivals) locFetch persistOk m).1 p
      = some s') :
    (passStep cfgID now (currentB arrivals) locFetch persistOk (p, s1)).1
      = some (p, s') := by
  obtain ⟨hstate, _⟩ := collectData_ok_some cfgID now arrivals locFetch persistOk
    m p s1 hnd h1
  rw [hstate] at h'
  obtain ⟨q, hq⟩ := bind_clean_eq_some now _ s' h'
  have hkey : q = p := passStep_key cfgID now (currentB arrivals) locFetch persistOk
    (p, s1) q s' hq
  subst hkey
  exact hq

theorem tick_success_le (cfgID : Int) (t : Tick) (m : StateMap) (p : String)
    (hnd : (m.map Prod.fst).Nodup) :
    successCount (runTick cfgID t m).2 p ≤ 1 := by
  unfold runTick
  cases hsnap : t.snapshot with
  | error u => simp [successCount, collectData]
  | ok arrivals =>
    rw [← successCount_callsFor]
    cases h1 : step1Effect t.now p arrivals (alookup m p) with
    | none =>
      obtain ⟨_, hc⟩ := collectData_ok_none cfgID t.now arrivals t.locFetch t.persistOk m p h1
      rw [hc]
      simp [successCount]
    | some s1 =>
      obtain ⟨_, hc⟩ := collectData_ok_some cfgID t.now arrivals t.locFetch t.persistOk
        m p s1 hnd h1
      rw [hc]
      by_cases hcur : currentB arrivals p = true
      · rw [passStep_cur cfgID t.now (currentB arrivals) t.locFetch t.persistOk (p, s1) hcur]
        simp [successCount]
      · rw [Bool.not_eq_true] at hcur
        rw [passStep_snd cfgID t.now (currentB arrivals) t.locFetch t.persistOk (p, s1) hcur]
        exact (passCore_spec cfgID t.now _ _ p s1).2.2.2.2.1

theorem step1Effect_some_of_lookup (now : Nat) (p : String)
    (arrivals : List BusArrivalInfo) (s : BusState) (o : Option BusState)
    (h : o = some s) :
    ∃ s1, step1Effect now p arrivals o = some s1 ∧ s1.Recorded = s.Recorded := by
  subst h
  obtain ⟨s1, h1⟩ := Option.isSome_iff_exists.mp
    (step1Effect_isSome now p arrivals (some s) rfl)
  refine ⟨s1, h1, ?_⟩
  rcases step1Effect_fields now p arrivals (some s) s1 h1 with
    ⟨s0, h0, _, _, hrec, _, _, _⟩ | ⟨h0, _⟩
  · have hss : s = s0 := by simpa using h0
    rw [hrec, ← hss]
  · exact absurd h0 (by simp)

theorem tick_rec_true (cfgID : Int) (t : Tick) (m : StateMap) (p : String) (s : BusState)
    (hnd : (m.map Prod.fst).Nodup) (hlook : alookup m p = some s)
    (hrec : s.Recorded = true) :
    successCount (runTick cfgID t m).2 p = 0
    ∧ (∀ s', alookup (runTick cfgID t m).1 p = some s' → s'.Recorded = true) := by
  unfold runTick
  cases hsnap : t.snapshot with
  | error u =>
    constructor
    · simp [successCount, collectData]
    · intro s' h'
      have hm : alookup m p = some s' := h'
      rw [hlook] at hm
      have hss : s = s' := by simpa using hm
      rw [← hss]
      exact hrec
  | ok arrivals =>
    obtain ⟨s1, h1, hrec1⟩ := step1Effect_some_of_lookup t.now p arrivals s
      (alookup m p) hlook
    rw [hrec] at hrec1
    obtain ⟨hstate, hcalls⟩ := collectData_ok_some cfgID t.now arrivals t.locFetch
      t.persistOk m p s1 hnd h1
    constructor
    · rw [← successCount_callsFor, hcalls]
      by_cases hcur : currentB arrivals p = true
      · rw [passStep_cur cfgID t.now (currentB arrivals) t.locFetch t.persistOk (p, s1) hcur]
        simp [successCount]
      · rw [Bool.not_eq_true] at hcur
        rw [passStep_snd cfgID t.now (currentB arrivals) t.locFetch t.persistOk (p, s1) hcur,
          passCore_recorded cfgID t.now _ _ p s1 hrec1]
        simp [successCount]
    · intro s' h'
      have hps := collectData_state_extract cfgID t.now arrivals t.locFetch t.persistOk
        m p s1 s' hnd h1 h'
      by_cases hcur : currentB arrivals p = true
      · rw [passStep_state_of_cur cfgID t.now _ t.locFetch t.persistOk p s1 s' hcur hps]
        exact hrec1
      · rw [Bool.not_eq_true] at hcur
        rw [passStep_state_of_absent cfgID t.now _ t.locFetch t.persistOk p s1 s' hcur hps,
          passCore_recorded cfgID t.now _ _ p s1 hrec1]
        exact hrec1

theorem tick_success_one (cfgID : Int) (t : Tick) (m : StateMap) (p : String)
    (hnd : (m.map Prod.fst).Nodup)
    (hone : successCount (runTick cfgID t m).2 p = 1) :
    ∀ s', alookup (runTick cfgID t m).1 p = some s' → s'.Recorded = true := by
  intro s' h'
  unfold runTick at hone h'
  cases hsnap : t.snapshot with
  | error u =>
    rw [hsnap] at hone
    simp [successCount, collectData] at hone
  | ok arrivals =>
    rw [hsnap] at hone h'
    cases h1 : step1Effect t.now p arrivals (alookup m p) with
    | none =>
      obtain ⟨_, hc⟩ := collectData_ok_none cfgID t.now arrivals t.locFetch t.persistOk m p h1
      rw [← successCount_callsFor, hc] at hone
      simp [successCount] at hone
    | some s1 =>
      obtain ⟨_, hcalls⟩ := collectData_ok_some cfgID t.now arrivals t.locFetch t.persistOk
        m p s1 hnd h1
      rw [← successCount_callsFor, hcalls] at hone
      have hps := collectData_state_extract cfgID t.now arrivals t.locFetch t.persistOk
        m p s1 s' hnd h1 h'
      by_cases hcur : currentB arrivals p = true
      · rw [passStep_cur cfgID t.now (currentB arrivals) t.locFetch t.persistOk
          (p, s1) hcur] at hone
        simp [successCount] at hone
      · rw [Bool.not_eq_true] at hcur
        rw [passStep_snd cfgID t.now (currentB arrivals) t.locFetch t.persistOk
          (p, s1) hcur] at hone
        rw [passStep_state_of_absent cfgID t.now _ t.locFetch t.persistOk p s1 s' hcur hps]
        exact ((passCore_spec cfgID t.now _ _ p s1).2.2.2.2.2.1).mpr (Or.inr hone)

theorem tick_rec_iff (cfgID : Int) (t : Tick) (m : StateMap) (p : String) (s s' : BusState)
    (hnd : (m.map Prod.fst).Nodup) (hlook : alookup m p = some s)
    (h' : alookup (runTick cfgID t m).1 p = some s') :
    (s'.Recorded = true ↔
      (s.Recorded = true ∨ successCount (runTick cfgID t m).2 p = 1)) := by
  unfold runTick at h' ⊢
  cases hsnap : t.snapshot with
  | error u =>
    rw [hsnap] at h'
    have hm : alookup m p = some s' := h'
    rw [hlook] at hm
    have hss : s = s' := by simpa using hm
    subst hss
    simp [successCount, collectData]
  | ok arrivals =>
    rw [hsnap] at h'
    obtain ⟨s1, h1, hrec1⟩ := step1Effect_some_of_lookup t.now p arrivals s
      (alookup m p) hlook
    obtain ⟨_, hcalls⟩ := collectData_ok_some cfgID t.now arrivals t.locFetch t.persistOk
      m p s1 hnd h1
    rw [← successCount_callsFor, hcalls]
    have hps := collectData_state_extract cfgID t.now arrivals t.locFetch t.persistOk
      m p s1 s' hnd h1 h'
    by_cases hcur : currentB arrivals p = true
    · rw [passStep_state_of_cur cfgID t.now _ t.locFetch t.persistOk p s1 s' hcur hps,
        hrec1,
        passStep_cur cfgID t.now (currentB arrivals) t.locFetch t.persistOk (p, s1) hcur]
      simp [successCount]
    · rw [Bool.not_eq_true] at hcur
      rw [passStep_state_of_absent cfgID t.now _ t.locFetch t.persistOk p s1 s' hcur hps,
        passStep_snd cfgID t.now (currentB arrivals) t.locFetch t.persistOk (p, s1) hcur,
        ← hrec1]
      exact (passCore_spec cfgID t.now _ _ p s1).2.2.2.2.2.1

theorem tick_persist_false (cfgID : Int) (t : Tick) (m : StateMap) (p : String)
    (s s' : BusState) (hnd : (m.map Prod.fst).Nodup) (hpf : t.persistOk p = false)
    (hlook : alookup m p = some s)
    (h' : alookup (runTick cfgID t m).1 p = some s') :
    s'.Recorded = s.Recorded := by
  unfold runTick at h'
  cases hsnap : t.snapshot with
  | error u =>
    rw [hsnap] at h'
    have hm : alookup m p = some s' := h'
    rw [hlook] at hm
    have hss : s = s' := by simpa using hm
    rw [← hss]
  | ok arrivals =>
    rw [hsnap] at h'
    obtain ⟨s1, h1, hrec1⟩ := step1Effect_some_of_lookup t.now p arrivals s
      (alookup m p) hlook
    have hps := collectData_state_extract cfgID t.now arrivals t.locFetch t.persistOk
      m p s1 s' hnd h1 h'
    by_cases hcur : currentB arrivals p = true
    · rw [passStep_state_of_cur cfgID t.now _ t.locFetch t.persistOk p s1 s' hcur hps]
      exact hrec1
    · rw [Bool.not_eq_true] at hcur
      rw [passStep_state_of_absent cfgID t.now _ t.locFetch t.persistOk p s1 s' hcur hps,
        ← hrec1]
      exact (passCore_spec cfgID t.now _ _ p s1).2.2.2.2.2.2 hpf

/-! ## Trace-level accounting -/

theorem runTicks_cons (cfgID : Int) (t : Tick) (ts : List Tick) (m : StateMap) :
    runTicks cfgID (t :: ts) m
      = ((runTicks cfgID ts (runTick cfgID t m).1).1,
         (runTick cfgID t m).2 ++ (runTicks cfgID ts (runTick cfgID t m).1).2) := rfl

theorem presentThroughoutB_cons (cfgID : Int) (p : String) (t : Tick) (ts : List Tick)
    (m : StateMap) :
    presentThroughoutB cfgID p (t :: ts) m
      = ((alookup (runTick cfgID t m).1 p).isSome
          && presentThroughoutB cfgID p ts (runTick cfgID t m).1) := rfl

theorem runTicks_rec_true (cfgID : Int) (p : String) :
    ∀ (ts : List Tick) (m : StateMap) (s : BusState),
    (m.map Prod.fst).Nodup → presentThroughoutB cfgID p ts m = true →
    alookup m p = some s → s.Recorded = true →
    successCount (runTicks cfgID ts m).2 p = 0 := by
  intro ts
  induction ts with
  | nil => intro m s _ _ _ _; rfl
  | cons t ts ih =>
    intro m s hnd hpres hlook hrec
    rw [presentThroughoutB_cons, Bool.and_eq_true] at hpres
    obtain ⟨hp1, hp2⟩ := hpres
    obtain ⟨hc0, hstate⟩ := tick_rec_true cfgID t m p s hnd hlook hrec
    obtain ⟨s', hs'⟩ := Option.isSome_iff_exists.mp hp1
    have hnd' : (((runTick cfgID t m).1).map Prod.fst).Nodup :=
      nodupKeys_collectData cfgID t.now t.snapshot t.locFetch t.persistOk m hnd
    have hrest := ih (runTick cfgID t m).1 s' hnd' hp2 hs' (hstate s' hs')
    rw [runTicks_cons, successCount_append, hc0, hrest]

theorem runTicks_success_le_one (cfgID : Int) (p : String) :
    ∀ (ts : List Tick) (m : StateMap),
    (m.map Prod.fst).Nodup → presentThroughoutB cfgID p ts m = true →
    successCount (runTicks cfgID ts m).2 p ≤ 1 := by
  intro ts
  induction ts with
  | nil => intro m _ _; exact Nat.zero_le 1
  | cons t ts ih =>
    intro m hnd hpres
    rw [presentThroughoutB_cons, Bool.and_eq_true] at hpres
    obtain ⟨hp1, hp2⟩ := hpres
    have hnd' : (((runTick cfgID t m).1).map Prod.fst).Nodup :=
      nodupKeys_collectData cfgID t.now t.snapshot t.locFetch t.persistOk m hnd
    rw [runTicks_cons, successCount_append]
    have hle := tick_success_le cfgID t m p hnd
    by_cases hz : successCount (runTick cfgID t m).2 p = 0
    · have hrest := ih (runTick cfgID t m).1 hnd' hp2
      omega
    · have h1 : successCount (runTick cfgID t m).2 p = 1 := by omega
      obtain ⟨s', hs'⟩ := Option.isSome_iff_exists.mp hp1
      have hrec' := tick_success_one cfgID t m p hnd h1 s' hs'
      have hz2 := runTicks_rec_true cfgID p ts (runTick cfgID t m).1 s' hnd' hp2 hs' hrec'
      omega

theorem bind_clean_some (now : Nat) (q : String) (x : BusState) :
    ((Option.map Prod.snd (some (q, x))).bind
      (fun s2 => if now - s2.FirstSeenAt ≤ ageCeiling then some s2 else none))
      = if now - x.FirstSeenAt ≤ ageCeiling then some x else none := rfl

theorem bind_clean_none (now : Nat) :
    ((Option.map Prod.snd (none : Option (String × BusState))).bind
      (fun s2 => if now - s2.FirstSeenAt ≤ ageCeiling then some s2 else none)) = none := rfl

/-- A tracked entry absent from the snapshot, last seen within the
retention window and younger than the age ceiling, survives the tick
with exactly the `passCore` treatment applied, and contributes exactly
the `passCore` persist calls. -/
theorem collectData_absent_notstale (cfgID : Int) (now : Nat)
    (arrivals : List BusArrivalInfo)
    (locFetch : String → Except Unit (List BusLocation)) (persistOk : String → Bool)
    (m : StateMap) (p : String) (s : BusState)
    (hnd : (m.map Prod.fst).Nodup) (hlook : alookup m p = some s)
    (hcur : currentB arrivals p = false)
    (hret : ¬ now - s.LastSeenAt > retentionWindow)
    (hage : now - s.FirstSeenAt ≤ ageCeiling) :
    alookup (collectData cfgID now (.ok arrivals) locFetch persistOk m).1 p
      = some (passCore cfgID now (getSeatsAfterFromBusLocation (locFetch p) p)
          (persistOk p) p s).1
    ∧ callsFor p (collectData cfgID now (.ok arrivals) locFetch persistOk m).2
      = (passCore cfgID now (getSeatsAfterFromBusLocation (locFetch p) p)
          (persistOk p) p s).2 := by
  have h1 : step1Effect now p arrivals (alookup m p) = some s := by
    rw [step1Effect_not_current now p arrivals _ hcur, hlook]
  obtain ⟨hstate, hcalls⟩ := collectData_ok_some cfgID now arrivals locFetch persistOk
    m p s hnd h1
  obtain ⟨hpl, hfs, hls, _⟩ := passCore_spec cfgID now
    (getSeatsAfterFromBusLocation (locFetch p) p) (persistOk p) p s
  constructor
  · rw [hstate, passStep_fst cfgID now (currentB arrivals) locFetch persistOk (p, s) hcur,
      if_neg (by rw [hls]; exact hret), bind_clean_some, if_pos (by rw [hfs]; exact hage)]
  · rw [hcalls, passStep_snd cfgID now (currentB arrivals) locFetch persistOk (p, s) hcur]

/-! ## Claim theorems: time window, confirmation policy, snapshot error, stop -/

/-- C6: the time window is open iff startHour and endHour are both 0, or
startHour < endHour and the hour is in the half-open range, or the
window wraps midnight and the hour is past the start or before the end,
or the bounds are equal and nonzero and the hour equals them; in
particular 22-2 opens hours 23 and 1 and closes hour 10, and 0-0 opens
every hour. -/
theorem time_window_gate :
    (∀ s e h : Fin 24, isWithinTimeWindow s e h = true ↔
      ((s = 0 ∧ e = 0) ∨ ((s : Nat) < e ∧ (s : Nat) ≤ h ∧ (h : Nat) < e) ∨
       ((e : Nat) < s ∧ ((s : Nat) ≤ h ∨ (h : Nat) < e)) ∨ (s = e ∧ s ≠ 0 ∧ h = s)))
    ∧ isWithinTimeWindow 22 2 23 = true ∧ isWithinTimeWindow 22 2 1 = true
    ∧ isWithinTimeWindow 22 2 10 = false
    ∧ (∀ h : Fin 24, isWithinTimeWindow 0 0 h = true) := by
  exact ⟨by decide, by decide, by decide, by decide, by decide⟩

/-- C7: the confirmation lookup returns nil on a transport error, when
no location matches the plate, and when every matching location carries
the negative sentinel; any confirmed value comes from a matching
location with seat count at least 0, and a seat count of exactly 0 is a
valid confirmation.  The function is total, so no error ever reaches
the tick loop. -/
theorem confirmation_policy_total :
    (∀ p : String, getSeatsAfterFromBusLocation (.error ()) p = none)
    ∧ (∀ (locs : List BusLocation) (p : String),
        (∀ loc ∈ locs, loc.PlateNo ≠ p) →
        getSeatsAfterFromBusLocation (.ok locs) p = none)
    ∧ (∀ (locs : List BusLocation) (p : String),
        (∀ loc ∈ locs, loc.PlateNo = p → loc.RemainSeatCnt < 0) →
        getSeatsAfterFromBusLocation (.ok locs) p = none)
    ∧ (∀ (locs : List BusLocation) (p : String) (v : Int),
        getSeatsAfterFromBusLocation (.ok locs) p = some v →
        0 ≤ v ∧ ∃ loc ∈ locs, loc.PlateNo = p ∧ loc.RemainSeatCnt = v)
    ∧ (∀ (p : String) (seq : Int),
        getSeatsAfterFromBusLocation
          (.ok [{ PlateNo := p, StationSeq := seq, RemainSeatCnt := 0 }]) p = some 0) := by
  refine ⟨fun p => rfl, ?_, ?_, ?_, ?_⟩
  · intro locs p h
    induction locs with
    | nil => rfl
    | cons loc rest ih =>
      have h1 : loc.PlateNo ≠ p := h loc (by simp)
      simp only [getSeatsAfterFromBusLocation, findSeatsAfter, if_neg h1] at ih ⊢
      exact ih fun l hl => h l (by simp [hl])
  · intro locs p h
    induction locs with
    | nil => rfl
    | cons loc rest ih =>
      by_cases h1 : loc.PlateNo = p
      · have h2 : loc.RemainSeatCnt < 0 := h loc (by simp) h1
        simp [getSeatsAfterFromBusLocation, findSeatsAfter, h1, h2]
      · simp only [getSeatsAfterFromBusLocation, findSeatsAfter, if_neg h1] at ih ⊢
        exact ih fun l hl => h l (by simp [hl])
  · intro locs p v h
    induction locs with
    | nil => simp [getSeatsAfterFromBusLocation, findSeatsAfter] at h
    | cons loc rest ih =>
      by_cases h1 : loc.PlateNo = p
      · by_cases h2 : loc.RemainSeatCnt < 0
        · simp [getSeatsAfterFromBusLocation, findSeatsAfter, h1, h2] at h
        · simp only [getSeatsAfterFromBusLocation, findSeatsAfter, if_pos h1,
            if_neg h2, Option.some.injEq] at h
          exact ⟨by omega, loc, by simp, h1, h⟩
      · simp only [getSeatsAfterFromBusLocation, findSeatsAfter, if_neg h1] at h
        obtain ⟨hv, loc', hmem, hrest⟩ := ih h
        exact ⟨hv, loc', by simp [hmem], hrest⟩
  · intro p seq
    simp [getSeatsAfterFromBusLocation, findSeatsAfter]

/-- Witness for C7 at concrete inputs: a list whose only entry carries
another plate yields no confirmation. -/
theorem confirmation_policy_total_w :
    getSeatsAfterFromBusLocation
      (.ok [{ PlateNo := "B", StationSeq := 1, RemainSeatCnt := 5 }]) "A" = none :=
  confirmation_policy_total.2.1
    [{ PlateNo := "B", StationSeq := 1, RemainSeatCnt := 5 }] "A" (by decide)

/-- C8: a snapshot-source error makes the tick a no-op on tracking
state: the map is returned unchanged and no persist call is made (none
of the three loops runs).  Totality of `collectData` models that the
error is not fatal to the worker loop, which merely proceeds to its
next tick. -/
theorem snapshot_error_tick_atomic (cfgID : Int) (now : Nat)
    (locFetch : String → Except Unit (List BusLocation)) (persistOk : String → Bool)
    (m : StateMap) (e : Unit) :
    collectData cfgID now (.error e) locFetch persistOk m = (m, []) := rfl

/-- C10: after any Stop the collector reports not running, Stop is
idempotent, and Stop on a non-running collector changes no state. -/
theorem stop_idempotent (c : CollectorState) :
    (c.Stop).IsRunning = false ∧ c.Stop.Stop = c.Stop
    ∧ (c.IsRunning = false → c.Stop = c) := by
  rcases c with ⟨r, m⟩
  cases r <;> simp [CollectorState.Stop, CollectorState.IsRunning]

/-- Witness for C10: Stop of a never-started collector is a no-op. -/
theorem stop_idempotent_w :
    ({ running := false, collectors := [] } : CollectorState).Stop
      = { running := false, collectors := [] } :=
  (stop_idempotent { running := false, collectors := [] }).2.2 (by decide)

/-- C2 counterexample: a tick at time 700 for an entry first and last
seen at time 0, never finalized (the confirmation source errors and no
persist call is ever made), removes the entry although it is not
finalized and its age (700 s) is far below the 1-hour ceiling: the
10-minute rule of the code does not require the entry to be finalized,
contrary to the claim. -/
theorem removal_invariant_cex :
    (alookup (collectData 1 700 (.ok []) (fun _ => .error ()) (fun _ => false)
        [("A", { PlateNo := "A", FirstSeenAt := 0, LastSeenAt := 0, SeatsBefore := 10,
                 LocationNo := 3, Recorded := false, PassedAt := none,
                 RetryCount := 0 })]).1 "A" = none)
    ∧ (collectData 1 700 (.ok []) (fun _ => .error ()) (fun _ => false)
        [("A", { PlateNo := "A", FirstSeenAt := 0, LastSeenAt := 0, SeatsBefore := 10,
                 LocationNo := 3, Recorded := false, PassedAt := none,
                 RetryCount := 0 })]).2 = []
    ∧ 700 - 0 ≤ ageCeiling := by
  exact ⟨by decide, by decide, by decide⟩

/-- C1: finalize-once.  Over any tick sequence during which plate `p`
stays tracked: at most one successful persist call is ever made for the
entry; an entry whose flag is already true never triggers another
persist call; within any single tick, the flag ends true exactly when
it was already true or this tick made one successful persist call (so
the flag is set only immediately after a successful persist, at most
once); and a tick whose persist calls fail leaves the flag unchanged
(in particular a failed write does not mark the entry finalized). -/
theorem finalize_once (cfgID : Int) (p : String) (m : StateMap) (ticks : List Tick)
    (hnd : (m.map Prod.fst).Nodup)
    (hpres : presentThroughoutB cfgID p ticks m = true) :
    successCount (runTicks cfgID ticks m).2 p ≤ 1
    ∧ (∀ s, alookup m p = some s → s.Recorded = true →
        successCount (runTicks cfgID ticks m).2 p = 0)
    ∧ (∀ (t : Tick) (s s' : BusState), alookup m p = some s →
        alookup (runTick cfgID t m).1 p = some s' →
        (s'.Recorded = true ↔
          (s.Recorded = true ∨ successCount (runTick cfgID t m).2 p = 1)))
    ∧ (∀ (t : Tick) (s s' : BusState), t.persistOk p = false →
        alookup m p = some s → alookup (runTick cfgID t m).1 p = some s' →
        s'.Recorded = s.Recorded) :=
  ⟨runTicks_success_le_one cfgID p ticks m hnd hpres,
   fun s hlook hrec => runTicks_rec_true cfgID p ticks m s hnd hpres hlook hrec,
   fun t s s' hlook h' => tick_rec_iff cfgID t m p s s' hnd hlook h',
   fun t s s' hpf hlook h' => tick_persist_false cfgID t m p s s' hnd hpf hlook h'⟩

/-- Witness for C1: one tick in which a tracked, unfinalized plate
disappears, confirmation succeeds with 4 seats, and the persist
succeeds. -/
theorem finalize_once_w :
    successCount (runTicks 1 [sampleTick] [("A", sampleBus)]).2 "A" ≤ 1
    ∧ (∀ s, alookup [("A", sampleBus)] "A" = some s → s.Recorded = true →
        successCount (runTicks 1 [sampleTick] [("A", sampleBus)]).2 "A" = 0)
    ∧ (∀ (t : Tick) (s s' : BusState), alookup [("A", sampleBus)] "A" = some s →
        alookup (runTick 1 t [("A", sampleBus)]).1 "A" = some s' →
        (s'.Recorded = true ↔
          (s.Recorded = true ∨ successCount (runTick 1 t [("A", sampleBus)]).2 "A" = 1)))
    ∧ (∀ (t : Tick) (s s' : BusState), t.persistOk "A" = false →
        alookup [("A", sampleBus)] "A" = some s →
        alookup (runTick 1 t [("A", sampleBus)]).1 "A" = some s' →
        s'.Recorded = s.Recorded) :=
  finalize_once 1 "A" [("A", sampleBus)] [sampleTick] (by decide) (by decide)

/-- C2 amended: on a tick whose snapshot fetch succeeds, a tracked
entry is removed exactly when its plate is absent from the snapshot and
more than the 10-minute retention window has elapsed since `LastSeenAt`
— whether or not the entry is finalized — or when more than the 1-hour
ceiling has elapsed since `FirstSeenAt`.  (The original claim required
the entry to be finalized for the retention-window removal; the code
does not check the flag there.) -/
theorem removal_invariant_amended (cfgID : Int) (now : Nat)
    (arrivals : List BusArrivalInfo)
    (locFetch : String → Except Unit (List BusLocation)) (persistOk : String → Bool)
    (m : StateMap) (p : String) (s : BusState)
    (hnd : (m.map Prod.fst).Nodup) (hlook : alookup m p = some s) :
    (alookup (collectData cfgID now (.ok arrivals) locFetch persistOk m).1 p = none
      ↔ ((currentB arrivals p = false ∧ now - s.LastSeenAt > retentionWindow)
          ∨ now - s.FirstSeenAt > ageCeiling)) := by
  by_cases hcur : currentB arrivals p = true
  · obtain ⟨s1, h1, hls⟩ := step1Effect_current now p arrivals hcur (alookup m p)
    have hfs : s1.FirstSeenAt = s.FirstSeenAt := by
      rcases step1Effect_fields now p arrivals (alookup m p) s1 h1 with
        ⟨s0, h0, _, hfs0, _⟩ | ⟨h0, _⟩
      · rw [hlook] at h0
        have hss : s = s0 := by simpa using h0
        rw [hfs0, ← hss]
      · rw [hlook] at h0
        exact absurd h0 (by simp)
    obtain ⟨hstate, _⟩ := collectData_ok_some cfgID now arrivals locFetch persistOk
      m p s1 hnd h1
    have heq : alookup (collectData cfgID now (.ok arrivals) locFetch persistOk m).1 p
        = if now - s.FirstSeenAt ≤ ageCeiling then some s1 else none := by
      rw [hstate,
        passStep_cur cfgID now (currentB arrivals) locFetch persistOk (p, s1) hcur,
        bind_clean_some, hfs]
    rw [heq]
    by_cases hage : now - s.FirstSeenAt ≤ ageCeiling
    · rw [if_pos hage]
      constructor
      · intro hx
        exact absurd hx (by simp)
      · rintro (⟨hcf, _⟩ | hage2)
        · rw [hcur] at hcf
          exact absurd hcf (by simp)
        · omega
    · rw [if_neg hage]
      constructor
      · intro _
        right
        omega
      · intro _
        rfl
  · rw [Bool.not_eq_true] at hcur
    have h1 : step1Effect now p arrivals (alookup m p) = some s := by
      rw [step1Effect_not_current now p arrivals _ hcur, hlook]
    obtain ⟨hstate, _⟩ := collectData_ok_some cfgID now arrivals locFetch persistOk
      m p s hnd h1
    obtain ⟨hpl, hfs, hls, _⟩ := passCore_spec cfgID now
      (getSeatsAfterFromBusLocation (locFetch p) p) (persistOk p) p s
    rw [hstate, passStep_fst cfgID now (currentB arrivals) locFetch persistOk (p, s) hcur]
    by_cases hret : now - (passCore cfgID now
        (getSeatsAfterFromBusLocation (locFetch p) p) (persistOk p) p s).1.LastSeenAt
        > retentionWindow
    · rw [if_pos hret, bind_clean_none]
      rw [hls] at hret
      constructor
      · intro _
        exact Or.inl ⟨hcur, hret⟩
      · intro _
        rfl
    · rw [if_neg hret, bind_clean_some, hfs]
      rw [hls] at hret
      by_cases hage : now - s.FirstSeenAt ≤ ageCeiling
      · rw [if_pos hage]
        constructor
        · intro hx
          exact absurd hx (by simp)
        · rintro (⟨_, hr⟩ | hage2)
          · omega
          · omega
      · rw [if_neg hage]
        constructor
        · intro _
          right
          omega
        · intro _
          rfl

/-- Witness for C2 amended: a fresh entry (seen 30 s ago, 30 s old)
whose plate is absent from the snapshot is not removed. -/
theorem removal_invariant_amended_w :
    (alookup (collectData 1 30 (.ok []) (fun _ => .error ()) (fun _ => false)
        [("A", sampleBus)]).1 "A" = none
      ↔ ((currentB [] "A" = false ∧ 30 - sampleBus.LastSeenAt > retentionWindow)
          ∨ 30 - sampleBus.FirstSeenAt > ageCeiling)) :=
  removal_invariant_amended 1 30 [] (fun _ => .error ()) (fun _ => false)
    [("A", sampleBus)] "A" sampleBus (by decide) (by decide)

/-- C3: timeout finalization.  For a tracked, unfinalized plate absent
from the snapshot whose confirmation lookup yields no valid value, in a
tick at which the entry is neither retention-stale nor past the age
ceiling: while less than the 2-minute timeout has elapsed since
`PassedAt`, the tick emits no persist call for the plate, leaves the
entry pending and increments `RetryCount`; at any tick at which at
least the timeout has elapsed (in particular the first such tick), a
successful persist emits exactly one record with seats-after absent and
marks the entry finalized; and the first absent tick sets `PassedAt` to
the tick time (it is never overwritten later, as the pending case
shows). -/
theorem timeout_finalization (cfgID : Int) (now : Nat)
    (arrivals : List BusArrivalInfo)
    (locFetch : String → Except Unit (List BusLocation)) (persistOk : String → Bool)
    (m : StateMap) (p : String) (s : BusState)
    (hnd : (m.map Prod.fst).Nodup) (hlook : alookup m p = some s)
    (hrec : s.Recorded = false) (hcur : currentB arrivals p = false)
    (hconf : getSeatsAfterFromBusLocation (locFetch p) p = none)
    (hret : ¬ now - s.LastSeenAt > retentionWindow)
    (hage : now - s.FirstSeenAt ≤ ageCeiling) :
    (∀ t0, s.PassedAt = some t0 → now - t0 < confirmTimeout →
      alookup (collectData cfgID now (.ok arrivals) locFetch persistOk m).1 p
        = some { s with RetryCount := s.RetryCount + 1 }
      ∧ callsFor p (collectData cfgID now (.ok arrivals) locFetch persistOk m).2 = [])
    ∧ (∀ t0, s.PassedAt = some t0 → ¬ now - t0 < confirmTimeout → persistOk p = true →
      alookup (collectData cfgID now (.ok arrivals) locFetch persistOk m).1 p
        = some { s with RetryCount := s.RetryCount + 1, Recorded := true }
      ∧ callsFor p (collectData cfgID now (.ok arrivals) locFetch persistOk m).2
        = [({ RouteConfigID := cfgID, BusNumber := p, ArrivalTime := s.LastSeenAt,
              SeatsBefore := s.SeatsBefore, SeatsAfter := none }, true)])
    ∧ (s.PassedAt = none →
      alookup (collectData cfgID now (.ok arrivals) locFetch persistOk m).1 p
        = some { s with PassedAt := some now, RetryCount := s.RetryCount + 1 }
      ∧ callsFor p (collectData cfgID now (.ok arrivals) locFetch persistOk m).2 = []) := by
  obtain ⟨hstate, hcalls⟩ := collectData_absent_notstale cfgID now arrivals locFetch
    persistOk m p s hnd hlook hcur hret hage
  rw [hconf] at hstate hcalls
  refine ⟨?_, ?_, ?_⟩
  · intro t0 hpa ht
    rw [passCore_confirm_none_pending cfgID now (persistOk p) p s t0 hrec hpa ht]
      at hstate hcalls
    exact ⟨hstate, hcalls⟩
  · intro t0 hpa ht hok
    rw [passCore_confirm_none_timeout cfgID now (persistOk p) p s t0 hrec hpa ht, hok]
      at hstate hcalls
    rw [if_pos rfl] at hstate
    exact ⟨hstate, hcalls⟩
  · intro hpa
    rw [passCore_confirm_none_first cfgID now (persistOk p) p s hrec hpa]
      at hstate hcalls
    exact ⟨hstate, hcalls⟩

/-- Witness for C3: the timeout branch at time 130, 130 s after
passage, with a succeeding persist. -/
theorem timeout_finalization_w :
    alookup (collectData 1 130 (.ok []) (fun _ => .error ()) (fun _ => true)
        [("A", samplePassed)]).1 "A"
      = some { samplePassed with RetryCount := samplePassed.RetryCount + 1, Recorded := true }
    ∧ callsFor "A" (collectData 1 130 (.ok []) (fun _ => .error ()) (fun _ => true)
        [("A", samplePassed)]).2
      = [({ RouteConfigID := 1, BusNumber := "A",
            ArrivalTime := samplePassed.LastSeenAt,
            SeatsBefore := samplePassed.SeatsBefore, SeatsAfter := none }, true)] :=
  (timeout_finalization 1 130 [] (fun _ => .error ()) (fun _ => true)
    [("A", samplePassed)] "A" samplePassed (by decide) (by decide) (by decide)
    (by decide) (by decide) (by decide) (by decide)).2.1 0 (by decide) (by decide)
    (by decide)

/-- C4: confirmation success short-circuits the timeout.  For a
tracked, unfinalized plate absent from the snapshot whose confirmation
lookup returns a valid value `v`, a tick with a succeeding persist
emits exactly one persist call for the plate — a record whose
seats-after is `v` and whose arrival timestamp is the entry's
`LastSeenAt` — and the surviving entry is finalized.  (The
before-timeout hypothesis mirrors the claim; the code finalizes on a
valid confirmation regardless of elapsed time.) -/
theorem confirm_short_circuit (cfgID : Int) (now : Nat)
    (arrivals : List BusArrivalInfo)
    (locFetch : String → Except Unit (List BusLocation)) (persistOk : String → Bool)
    (m : StateMap) (p : String) (s : BusState) (v : Int)
    (hnd : (m.map Prod.fst).Nodup) (hlook : alookup m p = some s)
    (hrec : s.Recorded = false) (hcur : currentB arrivals p = false)
    (hconf : getSeatsAfterFromBusLocation (locFetch p) p = some v)
    (hok : persistOk p = true)
    (_hbefore : ∀ t0, s.PassedAt = some t0 → now - t0 < confirmTimeout)
    (hret : ¬ now - s.LastSeenAt > retentionWindow)
    (hage : now - s.FirstSeenAt ≤ ageCeiling) :
    callsFor p (collectData cfgID now (.ok arrivals) locFetch persistOk m).2
      = [({ RouteConfigID := cfgID, BusNumber := p, ArrivalTime := s.LastSeenAt,
            SeatsBefore := s.SeatsBefore, SeatsAfter := some v }, true)]
    ∧ successCount (collectData cfgID now (.ok arrivals) locFetch persistOk m).2 p = 1
    ∧ (∀ s', alookup (collectData cfgID now (.ok arrivals) locFetch persistOk m).1 p
        = some s' → s'.Recorded = true) := by
  obtain ⟨hstate, hcalls⟩ := collectData_absent_notstale cfgID now arrivals locFetch
    persistOk m p s hnd hlook hcur hret hage
  rw [hconf, hok] at hstate hcalls
  rw [passCore_confirm_some cfgID now v true p s hrec, if_pos rfl] at hstate hcalls
  refine ⟨hcalls, ?_, ?_⟩
  · rw [← successCount_callsFor, hcalls]
    simp [successCount]
  · intro s' h'
    rw [hstate] at h'
    have h2 := (Option.some.injEq _ _).mp h'
    rw [← h2]

/-- Witness for C4: confirmation succeeds with 4 seats 30 s after the
plate was last seen. -/
theorem confirm_short_circuit_w :
    callsFor "A" (collectData 1 30 (.ok [])
        (fun _ => .ok [{ PlateNo := "A", StationSeq := 5, RemainSeatCnt := 4 }])
        (fun _ => true) [("A", sampleBus)]).2
      = [({ RouteConfigID := 1, BusNumber := "A", ArrivalTime := sampleBus.LastSeenAt,
            SeatsBefore := sampleBus.SeatsBefore, SeatsAfter := some 4 }, true)]
    ∧ successCount (collectData 1 30 (.ok [])
        (fun _ => .ok [{ PlateNo := "A", StationSeq := 5, RemainSeatCnt := 4 }])
        (fun _ => true) [("A", sampleBus)]).2 "A" = 1
    ∧ (∀ s', alookup (collectData 1 30 (.ok [])
        (fun _ => .ok [{ PlateNo := "A", StationSeq := 5, RemainSeatCnt := 4 }])
        (fun _ => true) [("A", sampleBus)]).1 "A" = some s' → s'.Recorded = true) :=
  confirm_short_circuit 1 30 []
    (fun _ => .ok [{ PlateNo := "A", StationSeq := 5, RemainSeatCnt := 4 }])
    (fun _ => true) [("A", sampleBus)] "A" sampleBus 4 (by decide) (by decide)
    (by decide) (by decide) (by decide) (by decide)
    (fun t0 h => Option.noConfusion h) (by decide) (by decide)

/-- C5: closer-approach monotonicity.  A tick in which a tracked plate
appears applies `updateBusState`: `LastSeenAt` always becomes the tick
time, and `SeatsBefore`/`LocationNo` are overwritten exactly when the
new ordinal is strictly smaller than the stored one; feeding the plate
ordinals 5, 3, 4, 2 (with seat readings 20, 13, 7, 2) leaves
`SeatsBefore` at the ordinal-2 reading (2), never the ordinal-4 reading
(7). -/
theorem closer_approach_monotonic :
    (∀ (now : Nat) (a : BusArrivalInfo) (s : BusState),
      (updateBusState now a s).LastSeenAt = now
      ∧ (a.LocationNo1 < s.LocationNo →
          (updateBusState now a s).SeatsBefore = a.RemainSeatCnt
          ∧ (updateBusState now a s).LocationNo = a.LocationNo1)
      ∧ (¬ a.LocationNo1 < s.LocationNo →
          (updateBusState now a s).SeatsBefore = s.SeatsBefore
          ∧ (updateBusState now a s).LocationNo = s.LocationNo))
    ∧ (∀ (cfg : Int) (now : Nat) (lf : String → Except Unit (List BusLocation))
        (pk : String → Bool) (m : StateMap) (p : String) (s : BusState)
        (a : BusArrivalInfo), (m.map Prod.fst).Nodup → alookup m p = some s →
        a.PlateNo = p → ¬ p = "" → now - s.FirstSeenAt ≤ ageCeiling →
        alookup (collectData cfg now (.ok [a]) lf pk m).1 p
          = some (updateBusState now a s))
    ∧ (alookup (runTicks 1 [approachTick 0 20 5, approachTick 1 13 3,
          approachTick 2 7 4, approachTick 3 2 2] []).1 "A").map
          (fun s => (s.SeatsBefore, s.LocationNo)) = some (2, 2) := by
  refine ⟨?_, ?_, by decide⟩
  · intro now a s
    unfold updateBusState
    split_ifs with h <;> simp [h]
  · intro cfg now lf pk m p s a hnd hlook hap hpne hage
    have hcond : ¬ (a.PlateNo = "" ∨ a.PlateNo ≠ p) := by
      push_neg
      exact ⟨by rw [hap]; exact hpne, hap⟩
    have h1 : step1Effect now p [a] (alookup m p) = some (updateBusState now a s) := by
      rw [step1Effect_cons, step1Fn_hit now p _ a hcond, hlook]
      rfl
    have hcur : currentB [a] p = true := by
      simp only [currentB, List.any_cons, List.any_nil, Bool.or_false,
        Bool.and_eq_true, bne_iff_ne, beq_iff_eq]
      exact ⟨by rw [hap]; exact hpne, hap⟩
    obtain ⟨hstate, _⟩ := collectData_ok_some cfg now [a] lf pk m p _ hnd h1
    rw [hstate, passStep_cur cfg now (currentB [a]) lf pk (p, updateBusState now a s) hcur,
      bind_clean_some, if_pos (by rw [(updateBusState_fields now a s).2.1]; exact hage)]

/-- Witness for C5: a single-arrival tick with a strictly smaller
ordinal overwrites the stored reading. -/
theorem closer_approach_monotonic_w :
    alookup (collectData 1 5 (.ok [{ PlateNo := "A", RemainSeatCnt := 13, LocationNo1 := 2 }])
        (fun _ => .error ()) (fun _ => false) [("A", sampleBus)]).1 "A"
      = some (updateBusState 5 { PlateNo := "A", RemainSeatCnt := 13, LocationNo1 := 2 } sampleBus) :=
  closer_approach_monotonic.2.1 1 5 (fun _ => .error ()) (fun _ => false)
    [("A", sampleBus)] "A" sampleBus
    { PlateNo := "A", RemainSeatCnt := 13, LocationNo1 := 2 }
    (by decide) (by decide) (by decide) (by decide) (by decide)

/-! ## Supervisor reconciliation -/

theorem alookup_isSome_mem {κ β : Type} [DecidableEq κ] (m : List (κ × β)) (k : κ) :
    (alookup m k).isSome = true ↔ k ∈ m.map Prod.fst := by
  cases h : alookup m k with
  | none => simp [(alookup_eq_none m k).mp h]
  | some b =>
    simp only [Option.isSome_some, true_iff]
    by_contra hmem
    exact absurd ((alookup_eq_none m k).mpr hmem) (by simp [h])

theorem startPass_cons_present (cfg : RouteConfig) (rest : List RouteConfig)
    (m : WorkerMap) (h : (alookup m cfg.id).isSome = true) :
    startPass (cfg :: rest) m = startPass rest m := by
  simp [startPass, h]

theorem startPass_cons_absent (cfg : RouteConfig) (rest : List RouteConfig)
    (m : WorkerMap) (h : ¬ (alookup m cfg.id).isSome = true) :
    startPass (cfg :: rest) m
      = ((startPass rest (m ++ [(cfg.id, { cfg := cfg })])).1,
         cfg.id :: (startPass rest (m ++ [(cfg.id, { cfg := cfg })])).2) := by
  simp [startPass, h]

theorem startPass_isSome (configs : List RouteConfig) :
    ∀ (m : WorkerMap) (i : Int),
    ((alookup (startPass configs m).1 i).isSome = true
      ↔ ((alookup m i).isSome = true ∨ activeIDs configs i = true)) := by
  induction configs with
  | nil =>
    intro m i
    simp [startPass, activeIDs]
  | cons cfg rest ih =>
    intro m i
    by_cases hp : (alookup m cfg.id).isSome = true
    · rw [startPass_cons_present cfg rest m hp, ih m i]
      constructor
      · rintro (h | h)
        · exact Or.inl h
        · right
          simp only [activeIDs, List.any_cons, Bool.or_eq_true] at h ⊢
          exact Or.inr h
      · rintro (h | h)
        · exact Or.inl h
        · simp only [activeIDs, List.any_cons, Bool.or_eq_true, beq_iff_eq] at h
          rcases h with h | h
          · left
            rw [← h]
            exact hp
          · right
            simpa [activeIDs] using h
    · rw [startPass_cons_absent cfg rest m hp, ih _ i]
      rw [alookup_isSome_mem, alookup_isSome_mem, List.map_append]
      simp only [List.map_cons, List.map_nil, List.mem_append, List.mem_singleton,
        activeIDs, List.any_cons, Bool.or_eq_true, beq_iff_eq]
      constructor
      · rintro ((h | h) | h)
        · exact Or.inl h
        · exact Or.inr (Or.inl h.symm)
        · exact Or.inr (Or.inr h)
      · rintro (h | (h | h))
        · exact Or.inl (Or.inl h)
        · exact Or.inl (Or.inr h.symm)
        · exact Or.inr h

theorem startPass_mem (configs : List RouteConfig) :
    ∀ (m : WorkerMap) (e : Int × ConfigCollector), e ∈ (startPass configs m).1 →
      e ∈ m ∨ activeIDs configs e.1 = true := by
  induction configs with
  | nil =>
    intro m e h
    exact Or.inl h
  | cons cfg rest ih =>
    intro m e h
    by_cases hp : (alookup m cfg.id).isSome = true
    · rw [startPass_cons_present cfg rest m hp] at h
      rcases ih m e h with h1 | h1
      · exact Or.inl h1
      · right
        simp only [activeIDs, List.any_cons, Bool.or_eq_true]
        right
        simpa [activeIDs] using h1
    · rw [startPass_cons_absent cfg rest m hp] at h
      rcases ih _ e h with h1 | h1
      · rcases List.mem_append.mp h1 with h2 | h2
        · exact Or.inl h2
        · right
          have he : e = (cfg.id, { cfg := cfg }) := by simpa using h2
          simp [activeIDs, he]
      · right
        simp only [activeIDs, List.any_cons, Bool.or_eq_true]
        right
        simpa [activeIDs] using h1

theorem startPass_noop (configs : List RouteConfig) :
    ∀ m : WorkerMap, (∀ cfg ∈ configs, (alookup m cfg.id).isSome = true) →
      startPass configs m = (m, []) := by
  induction configs with
  | nil =>
    intro m _
    rfl
  | cons cfg rest ih =>
    intro m h
    rw [startPass_cons_present cfg rest m (h cfg (by simp))]
    exact ih m (fun c hc => h c (by simp [hc]))

theorem stopPass_fst (configs : List RouteConfig) (m : WorkerMap) :
    (stopPass configs m).1 = m.filter (fun e => activeIDs configs e.1) := rfl

theorem stopPass_all_active (configs : List RouteConfig) (m : WorkerMap)
    (h : ∀ e ∈ m, activeIDs configs e.1 = true) :
    stopPass configs m = (m, []) := by
  show (m.filter _, (m.filter _).map Prod.fst) = (m, [])
  rw [List.filter_eq_self.mpr h,
    List.filter_eq_nil.mpr (fun e he => by simp [h e he])]
  rfl

theorem syncConfigs_ok (configs : List RouteConfig) (m : WorkerMap) :
    syncConfigs (.ok configs) m
      = ((startPass configs (stopPass configs m).1).1,
         (stopPass configs m).2,
         (startPass configs (stopPass configs m).1).2) := rfl

/-- C9: reconciliation idempotence.  One reconciliation run makes the
set of running-collector keys exactly the set of active configuration
IDs; running it again with the same configuration list stops no
collector, starts no collector, and leaves the worker map unchanged (a
fixpoint). -/
theorem reconciliation_idempotent (configs : List RouteConfig) (m : WorkerMap) :
    (∀ i : Int, (alookup (syncConfigs (.ok configs) m).1 i).isSome = true
        ↔ activeIDs configs i = true)
    ∧ syncConfigs (.ok configs) (syncConfigs (.ok configs) m).1
        = ((syncConfigs (.ok configs) m).1, [], []) := by
  have hall : ∀ e ∈ (syncConfigs (.ok configs) m).1, activeIDs configs e.1 = true := by
    intro e he
    rw [syncConfigs_ok] at he
    rcases startPass_mem configs (stopPass configs m).1 e he with h1 | h1
    · rw [stopPass_fst] at h1
      exact @List.of_mem_filter _ (fun e => activeIDs configs e.1) e m h1
    · exact h1
  constructor
  · intro i
    rw [syncConfigs_ok]
    show (alookup (startPass configs (stopPass configs m).1).1 i).isSome = true ↔ _
    rw [startPass_isSome configs (stopPass configs m).1 i]
    constructor
    · rintro (h | h)
      · rw [alookup_isSome_mem] at h
        obtain ⟨e, he, hei⟩ := List.mem_map.mp h
        rw [stopPass_fst] at he
        rw [← hei]
        exact @List.of_mem_filter _ (fun e => activeIDs configs e.1) e m he
      · exact h
    · exact Or.inr
  · have hstop := stopPass_all_active configs (syncConfigs (.ok configs) m).1 hall
    have hstart : startPass configs (syncConfigs (.ok configs) m).1
        = ((syncConfigs (.ok configs) m).1, []) := by
      apply startPass_noop
      intro cfg hc
      rw [syncConfigs_ok]
      show (alookup (startPass configs (stopPass configs m).1).1 cfg.id).isSome = true
      rw [startPass_isSome configs (stopPass configs m).1 cfg.id]
      right
      simp only [activeIDs, List.any_eq_true, beq_iff_eq]
      exact ⟨cfg, hc, rfl⟩
    rw [syncConfigs_ok, hstop, hstart]

end BusHistory
